import Mathlib

/-!
Verification development for the parking-lot allocator
(src/parkinglot/parkinglot.py).

The Python classes are embedded shallowly:
- `VehicleType`, `Vehicle`, `Spot` are direct structure translations.
- A Python dict `spot_id -> Spot` becomes an insertion-ordered
  association list `List (Int × Spot)`; `dict.get` becomes `lookupSpot`.
- A Python set of free spot ids becomes a `List Int` treated as a set
  (no duplicates in reachable states).  `set.pop()` removes an
  arbitrary element; here it is fixed as the head of the list, and
  `set.add` is `setAdd`, which is a no-op when the element is present,
  exactly like the Python method.  All properties proved below are
  insensitive to which free element `pop` returns.
- Methods that mutate `self` become functions `State → Result × State`;
  a `raise` site returns the error together with the unchanged state,
  which is faithful because every `raise` in the source happens before
  any mutation.
- Python `int` is `Int` (capacities may be negative; `range(a, b)`
  becomes `intRange a b`).
-/

inductive VehicleType where
  | CAR : VehicleType
  | BIKE : VehicleType
deriving DecidableEq

structure Vehicle where
  vtype : VehicleType
  reg : String
deriving DecidableEq

structure Spot where
  id : Int
  vtype : VehicleType
  is_occupied : Bool
  vehicle : Option Vehicle
deriving DecidableEq

structure Level where
  id : Int
  spots : List (Int × Spot)
  free_spots : VehicleType → List Int
  free_count : VehicleType → Int

structure ParkingLot where
  levels : List Level

/-- Python `range(a, b)` as a list of integers `a, a+1, ..., b-1`
(empty when `b ≤ a`). -/
def intRange (a b : Int) : List Int :=
  (List.range (b - a).toNat).map (fun (k : Nat) => a + (k : Int))

/-- Lookup in the spot dictionary (`level.spots.get(spot_id)` /
`level.spots[spot_id]`): first entry with the given key. -/
def lookupSpot : List (Int × Spot) → Int → Option Spot
  | [], _ => none
  | p :: rest, i => if p.1 = i then some p.2 else lookupSpot rest i

/-- In-place mutation of the spot stored under key `i`
(`spot.is_occupied = ...; spot.vehicle = ...` on the object held by the
dict): every entry with key `i` is rewritten through `f`. -/
def updateSpot (d : List (Int × Spot)) (i : Int) (f : Spot → Spot) :
    List (Int × Spot) :=
  d.map (fun p => if p.1 = i then (p.1, f p.2) else p)

/-- Python `set.add`: no-op when the element is already present. -/
def setAdd (l : List Int) (i : Int) : List Int :=
  if i ∈ l then l else i :: l

/-- `Level.__init__(level_id, car_spots, bike_spots)`: car spots get ids
`1 .. car_spots`, bike spots get ids `car_spots+1 .. car_spots+bike_spots`;
every spot starts free, the free sets hold all ids of their type and the
free counts are the number of loop iterations, i.e. the list lengths. -/
def mkLevel (level_id car_spots bike_spots : Int) : Level :=
  let carIds := intRange 1 (car_spots + 1)
  let bikeIds := intRange (car_spots + 1) (car_spots + bike_spots + 1)
  { id := level_id
    spots :=
      carIds.map (fun i => (i, ⟨i, VehicleType.CAR, false, none⟩)) ++
      bikeIds.map (fun i => (i, ⟨i, VehicleType.BIKE, false, none⟩))
    free_spots := fun t =>
      match t with
      | VehicleType.CAR => carIds
      | VehicleType.BIKE => bikeIds
    free_count := fun t =>
      match t with
      | VehicleType.CAR => (carIds.length : Int)
      | VehicleType.BIKE => (bikeIds.length : Int) }

/-- The level produced by `ParkingLot.park` from `lv` when it pops spot
id `sid` from the free set of `v.vtype`, leaving `rest`: the spot is
marked occupied and bound to `v`, and the free count is decremented.
The returned spot id is the dict key, which equals `spot.id` for every
entry the constructor ever creates. -/
def allocSpot (lv : Level) (v : Vehicle) (sid : Int) (rest : List Int) :
    Level :=
  { lv with
    spots := updateSpot lv.spots sid
      (fun s => { s with is_occupied := true, vehicle := some v })
    free_spots := fun t =>
      if t = v.vtype then rest else lv.free_spots t
    free_count := fun t =>
      if t = v.vtype then lv.free_count t - 1 else lv.free_count t }

/-- The loop body of `ParkingLot.park`: scan the levels in order, skip
levels whose free set for the vehicle type is empty, allocate in the
first level whose free set is non-empty. -/
def parkLevels : List Level → Vehicle → Option (Int × Int) × List Level
  | [], _ => (none, [])
  | lv :: rest, v =>
    match lv.free_spots v.vtype with
    | [] =>
      let r := parkLevels rest v
      (r.1, lv :: r.2)
    | sid :: free => (some (lv.id, sid), allocSpot lv v sid free :: rest)

/-- `ParkingLot.park(vehicle)`: returns `some (level_id, spot_id)` on
success, `none` for the Python `(None, None)` sentinel. -/
def park (lot : ParkingLot) (v : Vehicle) :
    Option (Int × Int) × ParkingLot :=
  let r := parkLevels lot.levels v
  (r.1, ⟨r.2⟩)

/-- The three `ValueError`s raised by `ParkingLot.unpark`, in source
order: invalid level ID, invalid spot ID, spot already empty. -/
inductive UnparkError where
  | unknownLevel : UnparkError
  | unknownSpot : UnparkError
  | alreadyFree : UnparkError
deriving DecidableEq

/-- `next((l for l in self.levels if l.id == level_id), None)`. -/
def findLevel : List Level → Int → Option Level
  | [], _ => none
  | lv :: rest, lid => if lv.id = lid then some lv else findLevel rest lid

/-- The level produced by a successful `ParkingLot.unpark` on `lv` at
spot id `sid` whose spot has type `t`: occupancy and vehicle reference
cleared, the id added back to the free set of `t` and that free count
incremented. -/
def releaseSpot (lv : Level) (sid : Int) (t : VehicleType) : Level :=
  { lv with
    spots := updateSpot lv.spots sid
      (fun s => { s with is_occupied := false, vehicle := none })
    free_spots := fun u =>
      if u = t then setAdd (lv.free_spots u) sid else lv.free_spots u
    free_count := fun u =>
      if u = t then lv.free_count u + 1 else lv.free_count u }

/-- `ParkingLot.unpark(level_id, spot_id)` acting on the level list: the
first level whose id matches is the target; each `raise` leaves the
state unchanged (every check precedes every mutation in the source). -/
def unparkLevels : List Level → Int → Int →
    Option UnparkError × List Level
  | [], _, _ => (some UnparkError.unknownLevel, [])
  | lv :: rest, lid, sid =>
    if lv.id = lid then
      match lookupSpot lv.spots sid with
      | none => (some UnparkError.unknownSpot, lv :: rest)
      | some s =>
        if s.is_occupied then
          (none, releaseSpot lv sid s.vtype :: rest)
        else
          (some UnparkError.alreadyFree, lv :: rest)
    else
      let r := unparkLevels rest lid sid
      (r.1, lv :: r.2)

/-- `ParkingLot.unpark`: `none` means success, `some e` the raised error. -/
def unpark (lot : ParkingLot) (lid sid : Int) :
    Option UnparkError × ParkingLot :=
  let r := unparkLevels lot.levels lid sid
  (r.1, ⟨r.2⟩)

/-- One printed line of `display_availability` for a level. -/
def availabilityLine (lv : Level) : String :=
  "Level " ++ toString lv.id ++ ": CAR=" ++
    toString (lv.free_count VehicleType.CAR) ++ ", BIKE=" ++
    toString (lv.free_count VehicleType.BIKE)

/-- The per-level loop of `display_availability`. -/
def availabilityLines : List Level → List String
  | [] => []
  | lv :: rest => availabilityLine lv :: availabilityLines rest

/-- `ParkingLot.display_availability()`: produces the printed lines and
returns the (untouched) lot; the body only reads `free_count`. -/
def display_availability (lot : ParkingLot) :
    List String × ParkingLot :=
  ("----- Parking Availability -----" ::
      availabilityLines lot.levels ++ ["--------------------------------"],
    lot)

/-- A lot built by `ParkingLot()` followed by `add_level(Level(...))`
for each configuration triple `(level_id, car_spots, bike_spots)`. -/
def mkLot (cfgs : List (Int × Int × Int)) : ParkingLot :=
  ⟨cfgs.map (fun c => mkLevel c.1 c.2.1 c.2.2)⟩

/-- States reachable from a start state by `park` / `unpark` calls. -/
inductive Reach : ParkingLot → ParkingLot → Prop where
  | refl (lot : ParkingLot) : Reach lot lot
  | park (lot lot' : ParkingLot) (v : Vehicle) :
      Reach lot lot' → Reach lot (park lot' v).2
  | unpark (lot lot' : ParkingLot) (lid sid : Int) :
      Reach lot lot' → Reach lot (unpark lot' lid sid).2

/-- The demo lot of the source: Level 1 with 2 CAR / 2 BIKE spots,
Level 2 with 1 CAR / 3 BIKE spots. -/
def demoLot : ParkingLot := mkLot [(1, 2, 2), (2, 1, 3)]

def demoCar : Vehicle := ⟨VehicleType.CAR, "CAR123"⟩

def demoBike : Vehicle := ⟨VehicleType.BIKE, "BIKE456"⟩

/-! ### Basic lemmas about the embedded containers -/

theorem length_intRange (a b : Int) :
    (intRange a b).length = (b - a).toNat := by
  rw [intRange, List.length_map, List.length_range]

theorem mem_intRange {a b i : Int} :
    i ∈ intRange a b ↔ a ≤ i ∧ i < b := by
  rw [intRange, List.mem_map]
  constructor
  · rintro ⟨k, hk, rfl⟩
    rw [List.mem_range] at hk
    omega
  · rintro ⟨h1, h2⟩
    refine ⟨(i - a).toNat, ?_, ?_⟩
    · rw [List.mem_range]
      omega
    · omega

theorem nodup_intRange (a b : Int) : (intRange a b).Nodup := by
  rw [intRange]
  refine List.Nodup.map ?_ (List.nodup_range _)
  intro k1 k2 h
  have h' : (k1 : Int) = (k2 : Int) := add_left_cancel h
  omega

theorem lookupSpot_nil (i : Int) : lookupSpot [] i = none := rfl

theorem lookupSpot_cons (p : Int × Spot) (rest : List (Int × Spot))
    (i : Int) :
    lookupSpot (p :: rest) i =
      if p.1 = i then some p.2 else lookupSpot rest i := rfl

theorem keys_updateSpot (d : List (Int × Spot)) (i : Int) (f : Spot → Spot) :
    (updateSpot d i f).map Prod.fst = d.map Prod.fst := by
  unfold updateSpot
  rw [List.map_map]
  refine List.map_congr_left ?_
  intro p _
  by_cases h : p.1 = i <;> simp [h]

theorem lookupSpot_updateSpot_self {d : List (Int × Spot)} {i : Int}
    {s : Spot} (f : Spot → Spot) (h : lookupSpot d i = some s) :
    lookupSpot (updateSpot d i f) i = some (f s) := by
  induction d with
  | nil => simp [lookupSpot_nil] at h
  | cons p rest ih =>
    rw [lookupSpot_cons] at h
    unfold updateSpot at ih ⊢
    rw [List.map_cons]
    by_cases hk : p.1 = i
    · rw [if_pos hk] at h ⊢
      injection h with h
      rw [lookupSpot_cons, if_pos hk, h]
    · rw [if_neg hk] at h ⊢
      rw [lookupSpot_cons, if_neg hk]
      exact ih h

theorem lookupSpot_updateSpot_ne {d : List (Int × Spot)} {i j : Int}
    (f : Spot → Spot) (h : j ≠ i) :
    lookupSpot (updateSpot d i f) j = lookupSpot d j := by
  induction d with
  | nil => rfl
  | cons p rest ih =>
    unfold updateSpot at ih ⊢
    rw [List.map_cons, lookupSpot_cons, lookupSpot_cons]
    by_cases hk : p.1 = i
    · have hkj : ¬ p.1 = j := fun hh => h (hh ▸ hk)
      rw [if_pos hk]
      show (if p.1 = j then some (f p.2) else _) = _
      rw [if_neg hkj, if_neg hkj]
      exact ih
    · rw [if_neg hk]
      by_cases hj : p.1 = j
      · rw [if_pos hj, if_pos hj]
      · rw [if_neg hj, if_neg hj]
        exact ih

theorem lookupSpot_mem {d : List (Int × Spot)} {i : Int} {s : Spot}
    (h : lookupSpot d i = some s) : (i, s) ∈ d := by
  induction d with
  | nil => simp [lookupSpot_nil] at h
  | cons p rest ih =>
    rw [lookupSpot_cons] at h
    by_cases hk : p.1 = i
    · rw [if_pos hk] at h
      injection h with h
      have : (i, s) = p := by
        rw [← hk, ← h]
      rw [this]
      exact List.mem_cons_self _ _
    · rw [if_neg hk] at h
      exact List.mem_cons_of_mem _ (ih h)

theorem lookupSpot_map_ids (ids : List Int) (g : Int → Spot) (j : Int) :
    lookupSpot (ids.map (fun i => (i, g i))) j =
      if j ∈ ids then some (g j) else none := by
  induction ids with
  | nil => simp [lookupSpot_nil]
  | cons a ids ih =>
    rw [List.map_cons, lookupSpot_cons]
    by_cases ha : a = j
    · subst ha
      simp
    · show (if a = j then some (g a) else _) = _
      rw [if_neg ha, ih]
      by_cases hj : j ∈ ids
      · rw [if_pos hj, if_pos (List.mem_cons_of_mem _ hj)]
      · rw [if_neg hj, if_neg (by simp [Ne.symm ha, hj])]

theorem lookupSpot_append_left {d1 : List (Int × Spot)}
    (d2 : List (Int × Spot)) {j : Int} {s : Spot}
    (h : lookupSpot d1 j = some s) :
    lookupSpot (d1 ++ d2) j = some s := by
  induction d1 with
  | nil => simp [lookupSpot_nil] at h
  | cons p rest ih =>
    rw [lookupSpot_cons] at h
    rw [List.cons_append, lookupSpot_cons]
    by_cases hk : p.1 = j
    · rwa [if_pos hk] at h ⊢
    · rw [if_neg hk] at h ⊢
      exact ih h

theorem lookupSpot_append_right {d1 : List (Int × Spot)}
    (d2 : List (Int × Spot)) {j : Int}
    (h : lookupSpot d1 j = none) :
    lookupSpot (d1 ++ d2) j = lookupSpot d2 j := by
  induction d1 with
  | nil => rfl
  | cons p rest ih =>
    rw [lookupSpot_cons] at h
    rw [List.cons_append, lookupSpot_cons]
    by_cases hk : p.1 = j
    · rw [if_pos hk] at h
      exact absurd h (by simp)
    · rw [if_neg hk] at h ⊢
      exact ih h

theorem keys_map_ids (ids : List Int) (g : Int → Spot) :
    (ids.map (fun i => (i, g i))).map Prod.fst = ids := by
  induction ids with
  | nil => rfl
  | cons a ids ih =>
    rw [List.map_cons, List.map_cons, ih]

/-! ### The level invariant of the spec (section 3) -/

/-- The documented invariant of a `Level`: dict keys are distinct, every
stored spot records its own key as `id` and satisfies
`occupied == (vehicle is not None)`, and for each vehicle type the free
set is duplicate-free, agrees with the redundant free count, and holds
exactly the ids of the unoccupied spots of that type. -/
structure LevelInv (lv : Level) : Prop where
  keys_nodup : (lv.spots.map Prod.fst).Nodup
  spot_ok : ∀ p ∈ lv.spots,
    p.2.id = p.1 ∧ p.2.is_occupied = p.2.vehicle.isSome
  free_nodup : ∀ t, (lv.free_spots t).Nodup
  free_count_eq : ∀ t, lv.free_count t = ((lv.free_spots t).length : Int)
  free_mem : ∀ t, ∀ i : Int, i ∈ lv.free_spots t ↔
    ∃ s, lookupSpot lv.spots i = some s ∧ s.vtype = t ∧
      s.is_occupied = false

/-- The lot invariant: every level satisfies its invariant. -/
def LotInv (lot : ParkingLot) : Prop := ∀ lv ∈ lot.levels, LevelInv lv

theorem mkLevel_id (lid c b : Int) : (mkLevel lid c b).id = lid := rfl

theorem mkLevel_spots (lid c b : Int) :
    (mkLevel lid c b).spots =
      (intRange 1 (c + 1)).map
        (fun i => (i, ⟨i, VehicleType.CAR, false, none⟩)) ++
      (intRange (c + 1) (c + b + 1)).map
        (fun i => (i, ⟨i, VehicleType.BIKE, false, none⟩)) := rfl

theorem mkLevel_free_spots_car (lid c b : Int) :
    (mkLevel lid c b).free_spots VehicleType.CAR = intRange 1 (c + 1) := rfl

theorem mkLevel_free_spots_bike (lid c b : Int) :
    (mkLevel lid c b).free_spots VehicleType.BIKE =
      intRange (c + 1) (c + b + 1) := rfl

theorem allocSpot_id (lv : Level) (v : Vehicle) (sid : Int)
    (rest : List Int) : (allocSpot lv v sid rest).id = lv.id := rfl

theorem allocSpot_spots (lv : Level) (v : Vehicle) (sid : Int)
    (rest : List Int) :
    (allocSpot lv v sid rest).spots =
      updateSpot lv.spots sid
        (fun s => { s with is_occupied := true, vehicle := some v }) := rfl

theorem allocSpot_free_spots (lv : Level) (v : Vehicle) (sid : Int)
    (rest : List Int) (t : VehicleType) :
    (allocSpot lv v sid rest).free_spots t =
      if t = v.vtype then rest else lv.free_spots t := rfl

theorem allocSpot_free_count (lv : Level) (v : Vehicle) (sid : Int)
    (rest : List Int) (t : VehicleType) :
    (allocSpot lv v sid rest).free_count t =
      if t = v.vtype then lv.free_count t - 1 else lv.free_count t := rfl

theorem releaseSpot_id (lv : Level) (sid : Int) (t0 : VehicleType) :
    (releaseSpot lv sid t0).id = lv.id := rfl

theorem releaseSpot_spots (lv : Level) (sid : Int) (t0 : VehicleType) :
    (releaseSpot lv sid t0).spots =
      updateSpot lv.spots sid
        (fun s => { s with is_occupied := false, vehicle := none }) := rfl

theorem releaseSpot_free_spots (lv : Level) (sid : Int) (t0 : VehicleType)
    (t : VehicleType) :
    (releaseSpot lv sid t0).free_spots t =
      if t = t0 then setAdd (lv.free_spots t) sid
      else lv.free_spots t := rfl

theorem releaseSpot_free_count (lv : Level) (sid : Int) (t0 : VehicleType)
    (t : VehicleType) :
    (releaseSpot lv sid t0).free_count t =
      if t = t0 then lv.free_count t + 1 else lv.free_count t := rfl

/-! ### The invariant holds at construction -/

theorem mkLevel_inv (lid c b : Int) : LevelInv (mkLevel lid c b) := by
  have hdisj : ∀ i : Int,
      i ∈ intRange 1 (c + 1) → i ∉ intRange (c + 1) (c + b + 1) := by
    intro i h1 h2
    rw [mem_intRange] at h1 h2
    omega
  have hlu : ∀ i : Int,
      lookupSpot (mkLevel lid c b).spots i =
        if i ∈ intRange 1 (c + 1) then
          some ⟨i, VehicleType.CAR, false, none⟩
        else if i ∈ intRange (c + 1) (c + b + 1) then
          some ⟨i, VehicleType.BIKE, false, none⟩
        else none := by
    intro i
    rw [mkLevel_spots]
    by_cases h1 : i ∈ intRange 1 (c + 1)
    · rw [if_pos h1]
      refine lookupSpot_append_left _ ?_
      rw [lookupSpot_map_ids, if_pos h1]
    · rw [if_neg h1]
      rw [lookupSpot_append_right _ (by rw [lookupSpot_map_ids, if_neg h1])]
      rw [lookupSpot_map_ids]
  constructor
  case keys_nodup =>
    rw [mkLevel_spots, List.map_append, keys_map_ids, keys_map_ids,
      List.nodup_append]
    exact ⟨nodup_intRange _ _, nodup_intRange _ _, hdisj⟩
  case spot_ok =>
    intro p hp
    rw [mkLevel_spots] at hp
    rcases List.mem_append.1 hp with h | h <;>
      obtain ⟨i, _, rfl⟩ := List.mem_map.1 h <;> exact ⟨rfl, rfl⟩
  case free_nodup =>
    intro t
    cases t with
    | CAR => exact nodup_intRange _ _
    | BIKE => exact nodup_intRange _ _
  case free_count_eq =>
    intro t
    cases t with
    | CAR => rfl
    | BIKE => rfl
  case free_mem =>
    intro t i
    rw [hlu i]
    cases t with
    | CAR =>
      rw [mkLevel_free_spots_car]
      by_cases h1 : i ∈ intRange 1 (c + 1)
      · rw [if_pos h1]
        exact iff_of_true h1 ⟨_, rfl, rfl, rfl⟩
      · rw [if_neg h1]
        refine iff_of_false h1 ?_
        by_cases h2 : i ∈ intRange (c + 1) (c + b + 1)
        · rw [if_pos h2]
          rintro ⟨s, hs, ht, -⟩
          injection hs with hs
          rw [← hs] at ht
          exact VehicleType.noConfusion ht
        · rw [if_neg h2]
          rintro ⟨s, hs, -, -⟩
          exact Option.noConfusion hs
    | BIKE =>
      rw [mkLevel_free_spots_bike]
      by_cases h1 : i ∈ intRange 1 (c + 1)
      · rw [if_pos h1]
        refine iff_of_false (hdisj i h1) ?_
        rintro ⟨s, hs, ht, -⟩
        injection hs with hs
        rw [← hs] at ht
        exact VehicleType.noConfusion ht
      · rw [if_neg h1]
        by_cases h2 : i ∈ intRange (c + 1) (c + b + 1)
        · rw [if_pos h2]
          exact iff_of_true h2 ⟨_, rfl, rfl, rfl⟩
        · rw [if_neg h2]
          refine iff_of_false h2 ?_
          rintro ⟨s, hs, -, -⟩
          exact Option.noConfusion hs

theorem mkLot_inv (cfgs : List (Int × Int × Int)) : LotInv (mkLot cfgs) := by
  intro lv hlv
  obtain ⟨c, _, rfl⟩ := List.mem_map.1 hlv
  exact mkLevel_inv _ _ _

/-! ### The invariant is preserved by allocation and release -/

theorem levelInv_alloc {lv : Level} {v : Vehicle} {sid : Int}
    {rest : List Int} (hinv : LevelInv lv)
    (hfs : lv.free_spots v.vtype = sid :: rest) :
    LevelInv (allocSpot lv v sid rest) := by
  have hmem0 : sid ∈ lv.free_spots v.vtype := by
    rw [hfs]
    exact List.mem_cons_self _ _
  obtain ⟨s0, hl0, ht0, ho0⟩ := (hinv.free_mem v.vtype sid).1 hmem0
  have hnodup0 : (sid :: rest).Nodup := hfs ▸ hinv.free_nodup v.vtype
  constructor
  case keys_nodup =>
    rw [allocSpot_spots, keys_updateSpot]
    exact hinv.keys_nodup
  case spot_ok =>
    intro p hp
    rw [allocSpot_spots] at hp
    obtain ⟨q, hq, rfl⟩ := List.mem_map.1 hp
    by_cases hqs : q.1 = sid
    · rw [if_pos hqs]
      exact ⟨(hinv.spot_ok q hq).1, rfl⟩
    · rw [if_neg hqs]
      exact hinv.spot_ok q hq
  case free_nodup =>
    intro t
    rw [allocSpot_free_spots]
    by_cases ht : t = v.vtype
    · rw [if_pos ht]
      exact List.Nodup.of_cons hnodup0
    · rw [if_neg ht]
      exact hinv.free_nodup t
  case free_count_eq =>
    intro t
    rw [allocSpot_free_count, allocSpot_free_spots]
    by_cases ht : t = v.vtype
    · subst ht
      rw [if_pos rfl, if_pos rfl, hinv.free_count_eq v.vtype, hfs,
        List.length_cons]
      push_cast
      ring
    · rw [if_neg ht, if_neg ht]
      exact hinv.free_count_eq t
  case free_mem =>
    intro t i
    rw [allocSpot_free_spots, allocSpot_spots]
    by_cases hi : i = sid
    · subst hi
      rw [lookupSpot_updateSpot_self _ hl0]
      by_cases ht : t = v.vtype
      · rw [if_pos ht]
        refine iff_of_false (fun hmem => (List.nodup_cons.1 hnodup0).1 hmem) ?_
        rintro ⟨s, hs, -, ho⟩
        injection hs with hs
        rw [← hs] at ho
        simp at ho
      · rw [if_neg ht]
        refine iff_of_false ?_ ?_
        · intro hmem
          obtain ⟨s1, hl1, ht1, -⟩ := (hinv.free_mem t i).1 hmem
          rw [hl0] at hl1
          injection hl1 with hl1
          rw [← hl1] at ht1
          rw [ht1] at ht0
          exact ht ht0
        · rintro ⟨s, hs, hst, -⟩
          injection hs with hs
          rw [← hs] at hst
          have : s0.vtype = t := hst
          rw [this] at ht0
          exact ht ht0
    · rw [lookupSpot_updateSpot_ne _ hi]
      by_cases ht : t = v.vtype
      · subst ht
        rw [if_pos rfl, ← hinv.free_mem v.vtype i, hfs, List.mem_cons]
        simp [hi]
      · rw [if_neg ht]
        exact hinv.free_mem t i

theorem levelInv_release {lv : Level} {sid : Int} {s : Spot}
    (hinv : LevelInv lv) (hl : lookupSpot lv.spots sid = some s)
    (hocc : s.is_occupied = true) :
    LevelInv (releaseSpot lv sid s.vtype) := by
  have hnotfree : ∀ t, sid ∉ lv.free_spots t := by
    intro t hmem
    obtain ⟨s1, hl1, -, ho1⟩ := (hinv.free_mem t sid).1 hmem
    rw [hl] at hl1
    injection hl1 with hl1
    rw [← hl1, hocc] at ho1
    exact Bool.noConfusion ho1
  have hadd : setAdd (lv.free_spots s.vtype) sid =
      sid :: lv.free_spots s.vtype := by
    unfold setAdd
    rw [if_neg (hnotfree s.vtype)]
  constructor
  case keys_nodup =>
    rw [releaseSpot_spots, keys_updateSpot]
    exact hinv.keys_nodup
  case spot_ok =>
    intro p hp
    rw [releaseSpot_spots] at hp
    obtain ⟨q, hq, rfl⟩ := List.mem_map.1 hp
    by_cases hqs : q.1 = sid
    · rw [if_pos hqs]
      exact ⟨(hinv.spot_ok q hq).1, rfl⟩
    · rw [if_neg hqs]
      exact hinv.spot_ok q hq
  case free_nodup =>
    intro t
    rw [releaseSpot_free_spots]
    by_cases ht : t = s.vtype
    · rw [if_pos ht, ht, hadd, List.nodup_cons]
      exact ⟨hnotfree s.vtype, hinv.free_nodup s.vtype⟩
    · rw [if_neg ht]
      exact hinv.free_nodup t
  case free_count_eq =>
    intro t
    rw [releaseSpot_free_count, releaseSpot_free_spots]
    by_cases ht : t = s.vtype
    · rw [if_pos ht, if_pos ht, ht, hadd, List.length_cons,
        hinv.free_count_eq s.vtype]
      push_cast
      ring
    · rw [if_neg ht, if_neg ht]
      exact hinv.free_count_eq t
  case free_mem =>
    intro t i
    rw [releaseSpot_free_spots, releaseSpot_spots]
    by_cases hi : i = sid
    · subst hi
      rw [lookupSpot_updateSpot_self _ hl]
      by_cases ht : t = s.vtype
      · rw [if_pos ht, ht, hadd]
        exact iff_of_true (List.mem_cons_self _ _) ⟨_, rfl, rfl, rfl⟩
      · rw [if_neg ht]
        refine iff_of_false (hnotfree t) ?_
        rintro ⟨s1, hs1, hst1, -⟩
        injection hs1 with hs1
        rw [← hs1] at hst1
        have : s.vtype = t := hst1
        exact ht this.symm
    · rw [lookupSpot_updateSpot_ne _ hi]
      by_cases ht : t = s.vtype
      · rw [if_pos ht, ht, hadd, List.mem_cons, ← hinv.free_mem s.vtype i]
        simp [hi]
      · rw [if_neg ht]
        exact hinv.free_mem t i

/-! ### Structural lemmas about park -/

theorem parkLevels_nil (v : Vehicle) : parkLevels [] v = (none, []) := rfl

theorem parkLevels_cons_empty {lv : Level} {v : Vehicle}
    (rest : List Level) (h : lv.free_spots v.vtype = []) :
    parkLevels (lv :: rest) v =
      ((parkLevels rest v).1, lv :: (parkLevels rest v).2) := by
  simp only [parkLevels]
  rw [h]

theorem parkLevels_cons_free {lv : Level} {v : Vehicle}
    (rest : List Level) {sid : Int} {free : List Int}
    (h : lv.free_spots v.vtype = sid :: free) :
    parkLevels (lv :: rest) v =
      (some (lv.id, sid), allocSpot lv v sid free :: rest) := by
  simp only [parkLevels]
  rw [h]

theorem park_fst (lot : ParkingLot) (v : Vehicle) :
    (park lot v).1 = (parkLevels lot.levels v).1 := rfl

theorem park_snd (lot : ParkingLot) (v : Vehicle) :
    (park lot v).2 = ⟨(parkLevels lot.levels v).2⟩ := rfl

theorem parkLevels_none_iff (ls : List Level) (v : Vehicle) :
    (parkLevels ls v).1 = none ↔ ∀ p ∈ ls, p.free_spots v.vtype = [] := by
  induction ls with
  | nil => simp [parkLevels_nil]
  | cons lv rest ih =>
    cases hfs : lv.free_spots v.vtype with
    | nil =>
      rw [parkLevels_cons_empty rest hfs, List.forall_mem_cons]
      constructor
      · intro h
        exact ⟨hfs, ih.1 h⟩
      · intro h
        exact ih.2 h.2
    | cons sid free =>
      rw [parkLevels_cons_free rest hfs, List.forall_mem_cons]
      constructor
      · intro h
        exact Option.noConfusion h
      · intro h
        rw [hfs] at h
        exact List.noConfusion h.1

theorem parkLevels_split {v : Vehicle} {lv : Level} {sid : Int}
    {free : List Int} (pre post : List Level)
    (hpre : ∀ p ∈ pre, p.free_spots v.vtype = [])
    (hlv : lv.free_spots v.vtype = sid :: free) :
    parkLevels (pre ++ lv :: post) v =
      (some (lv.id, sid), pre ++ allocSpot lv v sid free :: post) := by
  induction pre with
  | nil => exact parkLevels_cons_free post hlv
  | cons q pre ih =>
    have hq : q.free_spots v.vtype = [] := hpre q (List.mem_cons_self _ _)
    rw [List.cons_append, parkLevels_cons_empty _ hq,
      ih (fun p hp => hpre p (List.mem_cons_of_mem _ hp))]
    rfl

theorem parkLevels_some_exists {ls : List Level} {v : Vehicle} {lid sid : Int}
    (h : (parkLevels ls v).1 = some (lid, sid)) :
    ∃ pre lv post free, ls = pre ++ lv :: post ∧
      (∀ p ∈ pre, p.free_spots v.vtype = []) ∧
      lv.free_spots v.vtype = sid :: free ∧ lid = lv.id ∧
      (parkLevels ls v).2 = pre ++ allocSpot lv v sid free :: post := by
  induction ls with
  | nil => exact Option.noConfusion h
  | cons lv rest ih =>
    cases hfs : lv.free_spots v.vtype with
    | nil =>
      rw [parkLevels_cons_empty rest hfs] at h
      obtain ⟨pre, lv1, post, free, hsplit, hpre, hlv1, hid, hpost⟩ := ih h
      refine ⟨lv :: pre, lv1, post, free, ?_, ?_, hlv1, hid, ?_⟩
      · rw [List.cons_append, hsplit]
      · intro p hp
        rcases List.mem_cons.1 hp with rfl | hp
        · exact hfs
        · exact hpre p hp
      · rw [parkLevels_cons_empty rest hfs, hpost, List.cons_append]
    | cons sid0 free0 =>
      rw [parkLevels_cons_free rest hfs] at h
      injection h with h
      injection h with h1 h2
      refine ⟨[], lv, rest, free0, rfl, by simp, ?_, h1.symm, ?_⟩
      · rw [hfs, h2]
      · rw [parkLevels_cons_free rest hfs, h2, List.nil_append]

/-! ### Structural lemmas about unpark and findLevel -/

theorem findLevel_nil (lid : Int) : findLevel [] lid = none := rfl

theorem findLevel_cons (lv : Level) (rest : List Level) (lid : Int) :
    findLevel (lv :: rest) lid =
      if lv.id = lid then some lv else findLevel rest lid := rfl

theorem findLevel_append_left {ls1 : List Level} (ls2 : List Level)
    {lid : Int} {lv : Level} (h : findLevel ls1 lid = some lv) :
    findLevel (ls1 ++ ls2) lid = some lv := by
  induction ls1 with
  | nil => exact Option.noConfusion h
  | cons q rest ih =>
    rw [findLevel_cons] at h
    rw [List.cons_append, findLevel_cons]
    by_cases hq : q.id = lid
    · rwa [if_pos hq] at h ⊢
    · rw [if_neg hq] at h ⊢
      exact ih h

theorem findLevel_append_right {ls1 : List Level} (ls2 : List Level)
    {lid : Int} (h : findLevel ls1 lid = none) :
    findLevel (ls1 ++ ls2) lid = findLevel ls2 lid := by
  induction ls1 with
  | nil => rfl
  | cons q rest ih =>
    rw [findLevel_cons] at h
    rw [List.cons_append, findLevel_cons]
    by_cases hq : q.id = lid
    · rw [if_pos hq] at h
      exact Option.noConfusion h
    · rw [if_neg hq] at h ⊢
      exact ih h

theorem findLevel_none_of_ne {ls : List Level} {lid : Int}
    (h : ∀ p ∈ ls, ¬ p.id = lid) : findLevel ls lid = none := by
  induction ls with
  | nil => rfl
  | cons q rest ih =>
    rw [findLevel_cons, if_neg (h q (List.mem_cons_self _ _))]
    exact ih (fun p hp => h p (List.mem_cons_of_mem _ hp))

theorem findLevel_split {ls : List Level} {lid : Int} {lv : Level}
    (h : findLevel ls lid = some lv) :
    ∃ pre post, ls = pre ++ lv :: post ∧
      (∀ p ∈ pre, ¬ p.id = lid) ∧ lv.id = lid := by
  induction ls with
  | nil => exact Option.noConfusion h
  | cons q rest ih =>
    rw [findLevel_cons] at h
    by_cases hq : q.id = lid
    · rw [if_pos hq] at h
      injection h with h
      refine ⟨[], rest, ?_, by simp, h ▸ hq⟩
      rw [h]
      rfl
    · rw [if_neg hq] at h
      obtain ⟨pre, post, hsplit, hpre, hlv⟩ := ih h
      refine ⟨q :: pre, post, by rw [List.cons_append, hsplit], ?_, hlv⟩
      intro p hp
      rcases List.mem_cons.1 hp with rfl | hp
      · exact hq
      · exact hpre p hp

theorem findLevel_of_split {lid : Int} (pre : List Level) {lv : Level}
    (post : List Level) (hpre : ∀ p ∈ pre, ¬ p.id = lid)
    (hlv : lv.id = lid) :
    findLevel (pre ++ lv :: post) lid = some lv := by
  rw [findLevel_append_right _ (findLevel_none_of_ne hpre),
    findLevel_cons, if_pos hlv]

theorem unparkLevels_nil (lid sid : Int) :
    unparkLevels [] lid sid = (some UnparkError.unknownLevel, []) := rfl

theorem unparkLevels_cons_ne {lv : Level} (rest : List Level) {lid : Int}
    (sid : Int) (h : ¬ lv.id = lid) :
    unparkLevels (lv :: rest) lid sid =
      ((unparkLevels rest lid sid).1,
        lv :: (unparkLevels rest lid sid).2) := by
  simp only [unparkLevels]
  rw [if_neg h]

theorem unparkLevels_cons_nospot {lv : Level} (rest : List Level)
    {lid : Int} {sid : Int} (h : lv.id = lid)
    (hl : lookupSpot lv.spots sid = none) :
    unparkLevels (lv :: rest) lid sid =
      (some UnparkError.unknownSpot, lv :: rest) := by
  simp only [unparkLevels]
  rw [if_pos h, hl]

theorem unparkLevels_cons_notocc {lv : Level} {rest : List Level}
    {lid sid : Int} {s : Spot} (h : lv.id = lid)
    (hl : lookupSpot lv.spots sid = some s) (ho : s.is_occupied = false) :
    unparkLevels (lv :: rest) lid sid =
      (some UnparkError.alreadyFree, lv :: rest) := by
  simp only [unparkLevels]
  rw [if_pos h, hl]
  simp [ho]

theorem unparkLevels_cons_occ {lv : Level} {rest : List Level}
    {lid sid : Int} {s : Spot} (h : lv.id = lid)
    (hl : lookupSpot lv.spots sid = some s) (ho : s.is_occupied = true) :
    unparkLevels (lv :: rest) lid sid =
      (none, releaseSpot lv sid s.vtype :: rest) := by
  simp only [unparkLevels]
  rw [if_pos h, hl]
  simp [ho]

theorem unpark_fst (lot : ParkingLot) (lid sid : Int) :
    (unpark lot lid sid).1 = (unparkLevels lot.levels lid sid).1 := rfl

theorem unpark_snd (lot : ParkingLot) (lid sid : Int) :
    (unpark lot lid sid).2 = ⟨(unparkLevels lot.levels lid sid).2⟩ := rfl

theorem unparkLevels_fail_state {ls : List Level} {lid sid : Int}
    {e : UnparkError} (h : (unparkLevels ls lid sid).1 = some e) :
    (unparkLevels ls lid sid).2 = ls := by
  induction ls with
  | nil => rfl
  | cons lv rest ih =>
    by_cases hid : lv.id = lid
    · cases hl : lookupSpot lv.spots sid with
      | none => rw [unparkLevels_cons_nospot rest hid hl]
      | some s =>
        cases ho : s.is_occupied with
        | false => rw [unparkLevels_cons_notocc hid hl ho]
        | true =>
          rw [unparkLevels_cons_occ hid hl ho] at h
          exact Option.noConfusion h
    · rw [unparkLevels_cons_ne rest sid hid] at h ⊢
      rw [ih h]

/-! ### The lot invariant is preserved by every operation -/

theorem parkLevels_inv {ls : List Level} {v : Vehicle}
    (h : ∀ p ∈ ls, LevelInv p) :
    ∀ p ∈ (parkLevels ls v).2, LevelInv p := by
  induction ls with
  | nil =>
    intro p hp
    rw [parkLevels_nil] at hp
    exact absurd hp (List.not_mem_nil p)
  | cons lv rest ih =>
    cases hfs : lv.free_spots v.vtype with
    | nil =>
      rw [parkLevels_cons_empty rest hfs]
      intro p hp
      rcases List.mem_cons.1 hp with rfl | hp
      · exact h p (List.mem_cons_self _ _)
      · exact ih (fun q hq => h q (List.mem_cons_of_mem _ hq)) p hp
    | cons sid free =>
      rw [parkLevels_cons_free rest hfs]
      intro p hp
      rcases List.mem_cons.1 hp with rfl | hp
      · exact levelInv_alloc (h lv (List.mem_cons_self _ _)) hfs
      · exact h p (List.mem_cons_of_mem _ hp)

theorem unparkLevels_inv {ls : List Level} {lid sid : Int}
    (h : ∀ p ∈ ls, LevelInv p) :
    ∀ p ∈ (unparkLevels ls lid sid).2, LevelInv p := by
  induction ls with
  | nil =>
    intro p hp
    rw [unparkLevels_nil] at hp
    exact absurd hp (List.not_mem_nil p)
  | cons lv rest ih =>
    by_cases hid : lv.id = lid
    · cases hl : lookupSpot lv.spots sid with
      | none =>
        rw [unparkLevels_cons_nospot rest hid hl]
        exact h
      | some s =>
        cases ho : s.is_occupied with
        | false =>
          rw [unparkLevels_cons_notocc hid hl ho]
          exact h
        | true =>
          rw [unparkLevels_cons_occ hid hl ho]
          intro p hp
          rcases List.mem_cons.1 hp with rfl | hp
          · exact levelInv_release (h lv (List.mem_cons_self _ _)) hl ho
          · exact h p (List.mem_cons_of_mem _ hp)
    · rw [unparkLevels_cons_ne rest sid hid]
      intro p hp
      rcases List.mem_cons.1 hp with rfl | hp
      · exact h p (List.mem_cons_self _ _)
      · exact ih (fun q hq => h q (List.mem_cons_of_mem _ hq)) p hp

theorem lotInv_park {lot : ParkingLot} (v : Vehicle) (h : LotInv lot) :
    LotInv (park lot v).2 :=
  fun lv hlv => parkLevels_inv h lv hlv

theorem lotInv_unpark {lot : ParkingLot} (lid sid : Int) (h : LotInv lot) :
    LotInv (unpark lot lid sid).2 :=
  fun lv hlv => unparkLevels_inv h lv hlv

theorem reach_lotInv {lot0 lot : ParkingLot} (h : Reach lot0 lot)
    (h0 : LotInv lot0) : LotInv lot := by
  induction h with
  | refl => exact h0
  | park lot' v hr ih => exact lotInv_park v ih
  | unpark lot' lid sid hr ih => exact lotInv_unpark lid sid ih

/-! ### Counting spots, for the capacity invariant -/

/-- Number of spots of type `t` in the level (its capacity for `t`,
fixed at construction since spots are never added or removed). -/
def typeCount (lv : Level) (t : VehicleType) : Nat :=
  (lv.spots.filter (fun p => decide (p.2.vtype = t))).length

/-- Number of occupied spots of type `t` in the level. -/
def occCount (lv : Level) (t : VehicleType) : Nat :=
  (lv.spots.filter
    (fun p => decide (p.2.vtype = t) && p.2.is_occupied)).length

theorem length_filter_and_split {α : Type} (l : List α) (p q : α → Bool) :
    (l.filter p).length =
      (l.filter (fun a => p a && q a)).length +
      (l.filter (fun a => p a && !q a)).length := by
  induction l with
  | nil => rfl
  | cons a l ih =>
    rw [List.filter_cons, List.filter_cons, List.filter_cons]
    cases hp : p a <;> cases hq : q a <;> simp [hp, hq] <;> omega

theorem lookupSpot_some_of_mem {d : List (Int × Spot)} {i : Int} {s : Spot}
    (hnd : (d.map Prod.fst).Nodup) (h : (i, s) ∈ d) :
    lookupSpot d i = some s := by
  induction d with
  | nil => exact absurd h (List.not_mem_nil _)
  | cons p rest ih =>
    rw [List.map_cons, List.nodup_cons] at hnd
    rw [lookupSpot_cons]
    rcases List.mem_cons.1 h with rfl | h2
    · rw [if_pos rfl]
    · have hne : ¬ p.1 = i := by
        intro he
        refine hnd.1 ?_
        rw [he]
        exact List.mem_map.2 ⟨(i, s), h2, rfl⟩
      rw [if_neg hne]
      exact ih hnd.2 h2

theorem free_length_eq {lv : Level} (hinv : LevelInv lv) (t : VehicleType) :
    (lv.free_spots t).length =
      (lv.spots.filter
        (fun p => decide (p.2.vtype = t) && !p.2.is_occupied)).length := by
  have hnd2 : ((lv.spots.filter
      (fun p => decide (p.2.vtype = t) && !p.2.is_occupied)).map
        Prod.fst).Nodup :=
    hinv.keys_nodup.sublist ((List.filter_sublist _).map _)
  have hmem : ∀ i : Int, i ∈ lv.free_spots t ↔
      i ∈ (lv.spots.filter
        (fun p => decide (p.2.vtype = t) && !p.2.is_occupied)).map
          Prod.fst := by
    intro i
    rw [hinv.free_mem t i]
    constructor
    · rintro ⟨s, hl, ht, ho⟩
      refine List.mem_map.2
        ⟨(i, s), List.mem_filter.2 ⟨lookupSpot_mem hl, ?_⟩, rfl⟩
      simp [ht, ho]
    · intro h
      obtain ⟨p, hpf, hp1⟩ := List.mem_map.1 h
      obtain ⟨j, s⟩ := p
      have hj : j = i := hp1
      subst hj
      have hf := List.mem_filter.1 hpf
      have hcond := hf.2
      simp only [Bool.and_eq_true, decide_eq_true_eq,
        Bool.not_eq_true'] at hcond
      exact ⟨s, lookupSpot_some_of_mem hinv.keys_nodup hf.1,
        hcond.1, hcond.2⟩
  have hfin : (lv.free_spots t).toFinset =
      ((lv.spots.filter
        (fun p => decide (p.2.vtype = t) && !p.2.is_occupied)).map
          Prod.fst).toFinset := by
    apply Finset.ext
    intro i
    rw [List.mem_toFinset, List.mem_toFinset]
    exact hmem i
  have h1 := List.toFinset_card_of_nodup (hinv.free_nodup t)
  have h2 := List.toFinset_card_of_nodup hnd2
  rw [← h1, hfin, h2, List.length_map]

/-- Within an invariant-satisfying level, free count plus occupied count
equals the number of spots of that type. -/
theorem capacity_of_levelInv {lv : Level} (hinv : LevelInv lv)
    (t : VehicleType) :
    lv.free_count t + (occCount lv t : Int) = (typeCount lv t : Int) := by
  have hsplit := length_filter_and_split lv.spots
    (fun p => decide (p.2.vtype = t)) (fun p => p.2.is_occupied)
  have hfree := free_length_eq hinv t
  rw [hinv.free_count_eq t, hfree]
  unfold typeCount occCount
  rw [hsplit]
  push_cast
  ring

/-! ### The id and spot-type layout of every level is preserved -/

/-- The immutable part of a level: its id and the keys and vehicle types
of its spots (occupancy and bindings are mutable, these are not). -/
def levelShape (lv : Level) : Int × List (Int × VehicleType) :=
  (lv.id, lv.spots.map (fun p => (p.1, p.2.vtype)))

theorem levelShape_alloc (lv : Level) (v : Vehicle) (sid : Int)
    (rest : List Int) :
    levelShape (allocSpot lv v sid rest) = levelShape lv := by
  unfold levelShape
  rw [allocSpot_id, allocSpot_spots]
  unfold updateSpot
  rw [List.map_map]
  congr 1
  refine List.map_congr_left ?_
  intro p _
  by_cases h : p.1 = sid <;> simp [h]

theorem levelShape_release (lv : Level) (sid : Int) (t0 : VehicleType) :
    levelShape (releaseSpot lv sid t0) = levelShape lv := by
  unfold levelShape
  rw [releaseSpot_id, releaseSpot_spots]
  unfold updateSpot
  rw [List.map_map]
  congr 1
  refine List.map_congr_left ?_
  intro p _
  by_cases h : p.1 = sid <;> simp [h]

theorem parkLevels_shape (ls : List Level) (v : Vehicle) :
    ((parkLevels ls v).2).map levelShape = ls.map levelShape := by
  induction ls with
  | nil => rfl
  | cons lv rest ih =>
    cases hfs : lv.free_spots v.vtype with
    | nil =>
      rw [parkLevels_cons_empty rest hfs, List.map_cons, List.map_cons, ih]
    | cons sid free =>
      rw [parkLevels_cons_free rest hfs, List.map_cons, List.map_cons,
        levelShape_alloc]

theorem unparkLevels_shape (ls : List Level) (lid sid : Int) :
    ((unparkLevels ls lid sid).2).map levelShape = ls.map levelShape := by
  induction ls with
  | nil => rfl
  | cons lv rest ih =>
    by_cases hid : lv.id = lid
    · cases hl : lookupSpot lv.spots sid with
      | none => rw [unparkLevels_cons_nospot rest hid hl]
      | some s =>
        cases ho : s.is_occupied with
        | false => rw [unparkLevels_cons_notocc hid hl ho]
        | true =>
          rw [unparkLevels_cons_occ hid hl ho, List.map_cons,
            List.map_cons, levelShape_release]
    · rw [unparkLevels_cons_ne rest sid hid, List.map_cons, List.map_cons,
        ih]

theorem reach_shape {lot0 lot : ParkingLot} (h : Reach lot0 lot) :
    lot.levels.map levelShape = lot0.levels.map levelShape := by
  induction h with
  | refl => rfl
  | park lot' v hr ih => exact (parkLevels_shape _ _).trans ih
  | unpark lot' lid sid hr ih => exact (unparkLevels_shape _ _ _).trans ih

theorem typeCount_eq_shape (lv : Level) (t : VehicleType) :
    typeCount lv t =
      ((levelShape lv).2.filter (fun q => decide (q.2 = t))).length := by
  show (lv.spots.filter (fun p => decide (p.2.vtype = t))).length =
    ((lv.spots.map (fun p => (p.1, p.2.vtype))).filter
      (fun q => decide (q.2 = t))).length
  generalize lv.spots = d
  induction d with
  | nil => rfl
  | cons p rest ih =>
    rw [List.map_cons, List.filter_cons, List.filter_cons]
    by_cases h : p.2.vtype = t <;> simp [h, ih]

theorem typeCount_shape_eq {lv lv' : Level}
    (h : levelShape lv = levelShape lv') (t : VehicleType) :
    typeCount lv t = typeCount lv' t := by
  rw [typeCount_eq_shape, typeCount_eq_shape, h]

theorem typeCount_mkLevel_car (lid c b : Int) :
    typeCount (mkLevel lid c b) VehicleType.CAR = c.toNat := by
  unfold typeCount
  rw [mkLevel_spots, List.filter_append, List.length_append]
  have h1 : ((intRange 1 (c + 1)).map
      (fun i => ((i, ⟨i, VehicleType.CAR, false, none⟩) : Int × Spot))).filter
      (fun p => decide (p.2.vtype = VehicleType.CAR)) =
      (intRange 1 (c + 1)).map
        (fun i => (i, ⟨i, VehicleType.CAR, false, none⟩)) := by
    refine List.filter_eq_self.2 ?_
    intro p hp
    obtain ⟨i, -, rfl⟩ := List.mem_map.1 hp
    exact decide_eq_true rfl
  have h2 : ((intRange (c + 1) (c + b + 1)).map
      (fun i => ((i, ⟨i, VehicleType.BIKE, false, none⟩) : Int × Spot))).filter
      (fun p => decide (p.2.vtype = VehicleType.CAR)) = [] := by
    rw [List.filter_eq_nil_iff]
    intro p hp
    obtain ⟨i, -, rfl⟩ := List.mem_map.1 hp
    simp
  rw [h1, h2, List.length_map, List.length_nil, length_intRange]
  omega

theorem typeCount_mkLevel_bike (lid c b : Int) :
    typeCount (mkLevel lid c b) VehicleType.BIKE = b.toNat := by
  unfold typeCount
  rw [mkLevel_spots, List.filter_append, List.length_append]
  have h1 : ((intRange 1 (c + 1)).map
      (fun i => ((i, ⟨i, VehicleType.CAR, false, none⟩) : Int × Spot))).filter
      (fun p => decide (p.2.vtype = VehicleType.BIKE)) = [] := by
    rw [List.filter_eq_nil_iff]
    intro p hp
    obtain ⟨i, -, rfl⟩ := List.mem_map.1 hp
    simp
  have h2 : ((intRange (c + 1) (c + b + 1)).map
      (fun i => ((i, ⟨i, VehicleType.BIKE, false, none⟩) : Int × Spot))).filter
      (fun p => decide (p.2.vtype = VehicleType.BIKE)) =
      (intRange (c + 1) (c + b + 1)).map
        (fun i => (i, ⟨i, VehicleType.BIKE, false, none⟩)) := by
    refine List.filter_eq_self.2 ?_
    intro p hp
    obtain ⟨i, -, rfl⟩ := List.mem_map.1 hp
    exact decide_eq_true rfl
  rw [h1, h2, List.length_map, List.length_nil, length_intRange]
  omega

/-! ### Sequences of park calls and exhaustion -/

/-- Park each vehicle of the list in turn, collecting the results. -/
def parkSeq : ParkingLot → List Vehicle →
    List (Option (Int × Int)) × ParkingLot
  | lot, [] => ([], lot)
  | lot, v :: vs =>
    let r := park lot v
    let rs := parkSeq r.2 vs
    (r.1 :: rs.1, rs.2)

/-- Total number of free spots of type `t` across all levels. -/
def totalFree (lot : ParkingLot) (t : VehicleType) : Nat :=
  (lot.levels.map (fun lv => (lv.free_spots t).length)).sum

/-- Total CAR capacity of a configuration list. -/
def totalCarCapacity (cfgs : List (Int × Int × Int)) : Nat :=
  (cfgs.map (fun c => c.2.1.toNat)).sum

theorem parkSeq_nil (lot : ParkingLot) : parkSeq lot [] = ([], lot) := rfl

theorem parkSeq_cons (lot : ParkingLot) (v : Vehicle) (vs : List Vehicle) :
    parkSeq lot (v :: vs) =
      ((park lot v).1 :: (parkSeq (park lot v).2 vs).1,
        (parkSeq (park lot v).2 vs).2) := rfl

theorem parkLevels_none_state {ls : List Level} {v : Vehicle}
    (h : (parkLevels ls v).1 = none) : (parkLevels ls v).2 = ls := by
  induction ls with
  | nil => rfl
  | cons lv rest ih =>
    cases hfs : lv.free_spots v.vtype with
    | nil =>
      rw [parkLevels_cons_empty rest hfs] at h ⊢
      rw [ih h]
    | cons sid free =>
      rw [parkLevels_cons_free rest hfs] at h
      exact Option.noConfusion h

theorem park_none_state {lot : ParkingLot} {v : Vehicle}
    (h : (park lot v).1 = none) : (park lot v).2 = lot := by
  rw [park_snd, parkLevels_none_state h]

theorem park_none_iff (lot : ParkingLot) (v : Vehicle) :
    (park lot v).1 = none ↔ ∀ p ∈ lot.levels, p.free_spots v.vtype = [] :=
  parkLevels_none_iff lot.levels v

theorem totalFree_eq_zero_iff (lot : ParkingLot) (t : VehicleType) :
    totalFree lot t = 0 ↔ ∀ p ∈ lot.levels, p.free_spots t = [] := by
  unfold totalFree
  rw [List.sum_eq_zero_iff]
  constructor
  · intro h p hp
    have := h ((p.free_spots t).length) (List.mem_map.2 ⟨p, hp, rfl⟩)
    exact List.length_eq_zero.1 this
  · intro h x hx
    obtain ⟨p, hp, rfl⟩ := List.mem_map.1 hx
    rw [h p hp]
    rfl

theorem park_some_totalFree {lot : ParkingLot} {v : Vehicle}
    {lid sid : Int} (h : (park lot v).1 = some (lid, sid)) :
    totalFree (park lot v).2 v.vtype + 1 = totalFree lot v.vtype := by
  obtain ⟨pre, lv, post, free, hsplit, hpre, hfs, hlid, hpost⟩ :=
    parkLevels_some_exists h
  show ((parkLevels lot.levels v).2.map
    (fun lv => (lv.free_spots v.vtype).length)).sum + 1 =
    (lot.levels.map (fun lv => (lv.free_spots v.vtype).length)).sum
  rw [hpost, hsplit, List.map_append, List.map_append, List.map_cons,
    List.map_cons, List.sum_append, List.sum_append, List.sum_cons,
    List.sum_cons, allocSpot_free_spots, if_pos rfl, hfs,
    List.length_cons]
  omega

theorem park_some_of_totalFree_pos {lot : ParkingLot} {v : Vehicle}
    (h : 0 < totalFree lot v.vtype) : (park lot v).1 ≠ none := by
  intro hnone
  rw [park_none_iff] at hnone
  rw [← totalFree_eq_zero_iff lot v.vtype] at hnone
  omega

/-- Parking exactly as many vehicles of type `t` as there are free spots
of type `t` succeeds every time and leaves no free spot of type `t`. -/
theorem parkSeq_exhaust {t : VehicleType} :
    ∀ (vs : List Vehicle) (lot : ParkingLot),
    (∀ v ∈ vs, v.vtype = t) → totalFree lot t = vs.length →
    (∀ r ∈ (parkSeq lot vs).1, ∃ q, r = some q) ∧
      totalFree (parkSeq lot vs).2 t = 0 := by
  intro vs
  induction vs with
  | nil =>
    intro lot h1 h2
    rw [parkSeq_nil]
    exact ⟨fun r hr => absurd hr (List.not_mem_nil r), h2⟩
  | cons v vs ih =>
    intro lot h1 h2
    have hvt : v.vtype = t := h1 v (List.mem_cons_self _ _)
    have hpos : 0 < totalFree lot v.vtype := by
      rw [hvt, h2, List.length_cons]
      omega
    have hsome := park_some_of_totalFree_pos hpos
    obtain ⟨q, hq⟩ := Option.ne_none_iff_exists'.1 hsome
    obtain ⟨lid, sid⟩ := q
    have hdec := park_some_totalFree hq
    have hnext : totalFree (park lot v).2 t = vs.length := by
      rw [hvt, h2, List.length_cons] at hdec
      omega
    obtain ⟨hall, hzero⟩ := ih (park lot v).2
      (fun u hu => h1 u (List.mem_cons_of_mem _ hu)) hnext
    rw [parkSeq_cons]
    refine ⟨?_, hzero⟩
    intro r hr
    rcases List.mem_cons.1 hr with rfl | hr
    · exact ⟨(lid, sid), hq⟩
    · exact hall r hr

theorem totalFree_mkLot_car (cfgs : List (Int × Int × Int)) :
    totalFree (mkLot cfgs) VehicleType.CAR = totalCarCapacity cfgs := by
  unfold totalFree totalCarCapacity mkLot
  rw [List.map_map]
  congr 1
  refine List.map_congr_left ?_
  intro c _
  show ((mkLevel c.1 c.2.1 c.2.2).free_spots VehicleType.CAR).length =
    c.2.1.toNat
  rw [mkLevel_free_spots_car, length_intRange]
  omega

/-! ### Sequences of operations and occupied spots -/

/-- One call of the operational API. -/
inductive Op where
  | opPark (v : Vehicle) : Op
  | opUnpark (lid sid : Int) : Op
deriving DecidableEq

/-- The state after one operation (its result is discarded). -/
def applyOp (lot : ParkingLot) : Op → ParkingLot
  | Op.opPark v => (park lot v).2
  | Op.opUnpark lid sid => (unpark lot lid sid).2

/-- The state after a list of operations, applied left to right. -/
def runOps (lot : ParkingLot) : List Op → ParkingLot
  | [] => lot
  | op :: ops => runOps (applyOp lot op) ops

/-- The level found under `lid` holds spot `sid` and it is occupied. -/
def Occupied (lot : ParkingLot) (lid sid : Int) : Prop :=
  ∃ lv s, findLevel lot.levels lid = some lv ∧
    lookupSpot lv.spots sid = some s ∧ s.is_occupied = true

/-- No two levels of the lot share an id. -/
def NodupIds (lot : ParkingLot) : Prop := (lot.levels.map Level.id).Nodup

theorem runOps_nil (lot : ParkingLot) : runOps lot [] = lot := rfl

theorem runOps_cons (lot : ParkingLot) (op : Op) (ops : List Op) :
    runOps lot (op :: ops) = runOps (applyOp lot op) ops := rfl

theorem parkLevels_ids (ls : List Level) (v : Vehicle) :
    ((parkLevels ls v).2).map Level.id = ls.map Level.id := by
  induction ls with
  | nil => rfl
  | cons lv rest ih =>
    cases hfs : lv.free_spots v.vtype with
    | nil =>
      rw [parkLevels_cons_empty rest hfs, List.map_cons, List.map_cons, ih]
    | cons sid free =>
      rw [parkLevels_cons_free rest hfs, List.map_cons, List.map_cons,
        allocSpot_id]

theorem unparkLevels_ids (ls : List Level) (lid sid : Int) :
    ((unparkLevels ls lid sid).2).map Level.id = ls.map Level.id := by
  induction ls with
  | nil => rfl
  | cons lv rest ih =>
    by_cases hid : lv.id = lid
    · cases hl : lookupSpot lv.spots sid with
      | none => rw [unparkLevels_cons_nospot rest hid hl]
      | some s =>
        cases ho : s.is_occupied with
        | false => rw [unparkLevels_cons_notocc hid hl ho]
        | true =>
          rw [unparkLevels_cons_occ hid hl ho, List.map_cons,
            List.map_cons, releaseSpot_id]
    · rw [unparkLevels_cons_ne rest sid hid, List.map_cons, List.map_cons,
        ih]

theorem nodupIds_applyOp {lot : ParkingLot} (op : Op) (h : NodupIds lot) :
    NodupIds (applyOp lot op) := by
  cases op with
  | opPark v =>
    show ((parkLevels lot.levels v).2.map Level.id).Nodup
    rw [parkLevels_ids]
    exact h
  | opUnpark lid sid =>
    show ((unparkLevels lot.levels lid sid).2.map Level.id).Nodup
    rw [unparkLevels_ids]
    exact h

theorem lotInv_applyOp {lot : ParkingLot} (op : Op) (h : LotInv lot) :
    LotInv (applyOp lot op) := by
  cases op with
  | opPark v => exact lotInv_park v h
  | opUnpark lid sid => exact lotInv_unpark lid sid h

theorem ne_of_findLevel_none {ls : List Level} {lid : Int}
    (h : findLevel ls lid = none) : ∀ p ∈ ls, ¬ p.id = lid := by
  induction ls with
  | nil => intro p hp; exact absurd hp (List.not_mem_nil p)
  | cons q rest ih =>
    rw [findLevel_cons] at h
    intro p hp
    by_cases hq : q.id = lid
    · rw [if_pos hq] at h
      exact Option.noConfusion h
    · rw [if_neg hq] at h
      rcases List.mem_cons.1 hp with rfl | hp
      · exact hq
      · exact ih h p hp

theorem unparkLevels_some_exists {ls : List Level} {lid sid : Int}
    (h : (unparkLevels ls lid sid).1 = none) :
    ∃ pre lv post s, ls = pre ++ lv :: post ∧
      (∀ p ∈ pre, ¬ p.id = lid) ∧ lv.id = lid ∧
      lookupSpot lv.spots sid = some s ∧ s.is_occupied = true ∧
      (unparkLevels ls lid sid).2 =
        pre ++ releaseSpot lv sid s.vtype :: post := by
  induction ls with
  | nil =>
    rw [unparkLevels_nil] at h
    exact Option.noConfusion h
  | cons lv rest ih =>
    by_cases hid : lv.id = lid
    · cases hl : lookupSpot lv.spots sid with
      | none =>
        rw [unparkLevels_cons_nospot rest hid hl] at h
        exact Option.noConfusion h
      | some s =>
        cases ho : s.is_occupied with
        | false =>
          rw [unparkLevels_cons_notocc hid hl ho] at h
          exact Option.noConfusion h
        | true =>
          refine ⟨[], lv, rest, s, rfl, by simp, hid, hl, ho, ?_⟩
          rw [unparkLevels_cons_occ hid hl ho]
          rfl
    · rw [unparkLevels_cons_ne rest sid hid] at h
      obtain ⟨pre, lv1, post, s, hsplit, hpre, hid1, hl1, ho1, hsnd⟩ := ih h
      refine ⟨lv :: pre, lv1, post, s, ?_, ?_, hid1, hl1, ho1, ?_⟩
      · rw [List.cons_append, hsplit]
      · intro p hp
        rcases List.mem_cons.1 hp with rfl | hp
        · exact hid
        · exact hpre p hp
      · rw [unparkLevels_cons_ne rest sid hid, hsnd]
        rfl

theorem occupied_park {lot : ParkingLot} {lid sid : Int} (v : Vehicle)
    (hinv : LotInv lot) (hocc : Occupied lot lid sid) :
    Occupied (park lot v).2 lid sid := by
  obtain ⟨lv, s, hfind, hlook, hso⟩ := hocc
  cases hp : (park lot v).1 with
  | none =>
    rw [park_none_state hp]
    exact ⟨lv, s, hfind, hlook, hso⟩
  | some q =>
    obtain ⟨lid2, sid2⟩ := q
    obtain ⟨pre, lvj, post, free, hsplit, hpre, hfs, hlid2, hpost⟩ :=
      parkLevels_some_exists hp
    have hlevels : (park lot v).2.levels =
        pre ++ allocSpot lvj v sid2 free :: post := hpost
    cases hfp : findLevel pre lid with
    | some lv1 =>
      have h1 : findLevel lot.levels lid = some lv1 := by
        rw [hsplit]
        exact findLevel_append_left _ hfp
      rw [hfind] at h1
      injection h1 with h1
      subst h1
      refine ⟨lv, s, ?_, hlook, hso⟩
      rw [hlevels]
      exact findLevel_append_left _ hfp
    | none =>
      have h2 : findLevel lot.levels lid = findLevel (lvj :: post) lid := by
        rw [hsplit]
        exact findLevel_append_right _ hfp
      rw [hfind, findLevel_cons] at h2
      by_cases hj : lvj.id = lid
      · rw [if_pos hj] at h2
        injection h2 with h2
        subst h2
        have hinvlv : LevelInv lv := hinv lv (by
          rw [hsplit]
          exact List.mem_append_right _ (List.mem_cons_self _ _))
        have hsid2 : sid2 ∈ lv.free_spots v.vtype := by
          rw [hfs]
          exact List.mem_cons_self _ _
        obtain ⟨s2, hl2, ht2, ho2⟩ :=
          (hinvlv.free_mem v.vtype sid2).1 hsid2
        have hne : sid ≠ sid2 := by
          intro he
          rw [← he, hlook] at hl2
          injection hl2 with hl2
          rw [← hl2] at ho2
          rw [hso] at ho2
          exact Bool.noConfusion ho2
        refine ⟨allocSpot lv v sid2 free, s, ?_, ?_, hso⟩
        · rw [hlevels]
          refine findLevel_of_split pre post (ne_of_findLevel_none hfp) ?_
          rw [allocSpot_id]
          exact hj
        · rw [allocSpot_spots, lookupSpot_updateSpot_ne _ hne]
          exact hlook
      · rw [if_neg hj] at h2
        have hj' : ¬ (allocSpot lvj v sid2 free).id = lid := by
          rw [allocSpot_id]
          exact hj
        refine ⟨lv, s, ?_, hlook, hso⟩
        rw [hlevels, findLevel_append_right _ hfp, findLevel_cons,
          if_neg hj']
        exact h2.symm

theorem occupied_unpark {lot : ParkingLot} {lid sid lid' sid' : Int}
    (hne : ¬(lid' = lid ∧ sid' = sid)) (hocc : Occupied lot lid sid) :
    Occupied (unpark lot lid' sid').2 lid sid := by
  obtain ⟨lv, s, hfind, hlook, hso⟩ := hocc
  cases hu : (unpark lot lid' sid').1 with
  | some e =>
    have hstate : (unparkLevels lot.levels lid' sid').2 = lot.levels :=
      unparkLevels_fail_state hu
    rw [unpark_snd, hstate]
    exact ⟨lv, s, hfind, hlook, hso⟩
  | none =>
    have hu2 : (unparkLevels lot.levels lid' sid').1 = none := hu
    obtain ⟨pre, lvu, post, su, hsplit, hpre, hidu, hlu, hou, hsnd⟩ :=
      unparkLevels_some_exists hu2
    have hlevels : (unpark lot lid' sid').2.levels =
        pre ++ releaseSpot lvu sid' su.vtype :: post := hsnd
    cases hfp : findLevel pre lid with
    | some lv1 =>
      have h1 : findLevel lot.levels lid = some lv1 := by
        rw [hsplit]
        exact findLevel_append_left _ hfp
      rw [hfind] at h1
      injection h1 with h1
      subst h1
      refine ⟨lv, s, ?_, hlook, hso⟩
      rw [hlevels]
      exact findLevel_append_left _ hfp
    | none =>
      have h2 : findLevel lot.levels lid = findLevel (lvu :: post) lid := by
        rw [hsplit]
        exact findLevel_append_right _ hfp
      rw [hfind, findLevel_cons] at h2
      by_cases hj : lvu.id = lid
      · rw [if_pos hj] at h2
        injection h2 with h2
        subst h2
        have hl' : lid' = lid := by
          rw [← hidu, hj]
        have hs' : ¬ sid' = sid := fun hss => hne ⟨hl', hss⟩
        refine ⟨releaseSpot lv sid' su.vtype, s, ?_, ?_, hso⟩
        · rw [hlevels]
          refine findLevel_of_split pre post (ne_of_findLevel_none hfp) ?_
          rw [releaseSpot_id]
          exact hj
        · rw [releaseSpot_spots,
            lookupSpot_updateSpot_ne _ (fun hss => hs' hss.symm)]
          exact hlook
      · rw [if_neg hj] at h2
        have hj' : ¬ (releaseSpot lvu sid' su.vtype).id = lid := by
          rw [releaseSpot_id]
          exact hj
        refine ⟨lv, s, ?_, hlook, hso⟩
        rw [hlevels, findLevel_append_right _ hfp, findLevel_cons,
          if_neg hj']
        exact h2.symm

/-- A successful park picks a spot that was free and unbound, and
leaves it occupied; needs distinct level ids so that the returned
level id resolves to the allocating level. -/
theorem park_success_fresh {lot : ParkingLot} {v : Vehicle} {lid sid : Int}
    (hinv : LotInv lot) (hids : NodupIds lot)
    (hp : (park lot v).1 = some (lid, sid)) :
    (∃ lv s, findLevel lot.levels lid = some lv ∧
      lookupSpot lv.spots sid = some s ∧ s.is_occupied = false ∧
      s.vehicle = none ∧ s.vtype = v.vtype) ∧
    Occupied (park lot v).2 lid sid := by
  obtain ⟨pre, lvj, post, free, hsplit, hpre, hfs, hlid, hpost⟩ :=
    parkLevels_some_exists hp
  have hlvj : lvj ∈ lot.levels := by
    rw [hsplit]
    exact List.mem_append_right _ (List.mem_cons_self _ _)
  have hinvj : LevelInv lvj := hinv lvj hlvj
  have hsid : sid ∈ lvj.free_spots v.vtype := by
    rw [hfs]
    exact List.mem_cons_self _ _
  obtain ⟨s, hl, ht, ho⟩ := (hinvj.free_mem v.vtype sid).1 hsid
  have hok := hinvj.spot_ok (sid, s) (lookupSpot_mem hl)
  have hveh : s.vehicle = none := by
    have h2 := hok.2
    rw [ho] at h2
    cases hv : s.vehicle with
    | none => rfl
    | some u =>
      rw [hv] at h2
      exact Bool.noConfusion h2
  have hprene : ∀ p ∈ pre, ¬ p.id = lid := by
    intro p hp2 he
    have hids2 : ((pre ++ lvj :: post).map Level.id).Nodup := by
      rw [← hsplit]
      exact hids
    rw [List.map_append, List.nodup_append] at hids2
    refine hids2.2.2 (List.mem_map.2 ⟨p, hp2, rfl⟩) ?_
    rw [List.map_cons, he, hlid]
    exact List.mem_cons_self _ _
  have hfind : findLevel lot.levels lid = some lvj := by
    rw [hsplit]
    exact findLevel_of_split pre post hprene hlid.symm
  have hlevels : (park lot v).2.levels =
      pre ++ allocSpot lvj v sid free :: post := hpost
  constructor
  · exact ⟨lvj, s, hfind, hl, ho, hveh, ht⟩
  · refine ⟨allocSpot lvj v sid free,
      { s with is_occupied := true, vehicle := some v }, ?_, ?_, rfl⟩
    · rw [hlevels]
      refine findLevel_of_split pre post hprene ?_
      rw [allocSpot_id]
      exact hlid.symm
    · rw [allocSpot_spots]
      exact lookupSpot_updateSpot_self _ hl

/-- Park never hands out a location that is currently occupied
(distinct level ids required). -/
theorem park_not_occupied {lot : ParkingLot} {v : Vehicle} {lid sid : Int}
    (hinv : LotInv lot) (hids : NodupIds lot)
    (hocc : Occupied lot lid sid) :
    (park lot v).1 ≠ some (lid, sid) := by
  intro hp
  obtain ⟨⟨lv, s, hfind, hl, ho, -, -⟩, -⟩ := park_success_fresh hinv hids hp
  obtain ⟨lv', s', hfind', hl', ho'⟩ := hocc
  rw [hfind] at hfind'
  injection hfind' with hfind'
  subst hfind'
  rw [hl] at hl'
  injection hl' with hl'
  subst hl'
  rw [ho] at ho'
  exact Bool.noConfusion ho'

theorem runOps_occupied {lid sid : Int} :
    ∀ (ops : List Op) (lot : ParkingLot), LotInv lot → NodupIds lot →
    (∀ op ∈ ops, op ≠ Op.opUnpark lid sid) → Occupied lot lid sid →
    LotInv (runOps lot ops) ∧ NodupIds (runOps lot ops) ∧
      Occupied (runOps lot ops) lid sid := by
  intro ops
  induction ops with
  | nil =>
    intro lot h1 h2 h3 h4
    exact ⟨h1, h2, h4⟩
  | cons op ops ih =>
    intro lot h1 h2 h3 h4
    rw [runOps_cons]
    refine ih (applyOp lot op) (lotInv_applyOp op h1)
      (nodupIds_applyOp op h2)
      (fun o ho => h3 o (List.mem_cons_of_mem _ ho)) ?_
    cases op with
    | opPark v => exact occupied_park v h1 h4
    | opUnpark lid2 sid2 =>
      refine occupied_unpark ?_ h4
      rintro ⟨he1, he2⟩
      exact h3 (Op.opUnpark lid2 sid2) (List.mem_cons_self _ _)
        (by rw [he1, he2])

theorem mem_setAdd_self (l : List Int) (i : Int) : i ∈ setAdd l i := by
  unfold setAdd
  by_cases h : i ∈ l
  · rw [if_pos h]
    exact h
  · rw [if_neg h]
    exact List.mem_cons_self _ _

theorem unparkLevels_none_level {ls : List Level} {lid : Int} (sid : Int)
    (h : findLevel ls lid = none) :
    unparkLevels ls lid sid = (some UnparkError.unknownLevel, ls) := by
  induction ls with
  | nil => rfl
  | cons lv rest ih =>
    rw [findLevel_cons] at h
    by_cases hid : lv.id = lid
    · rw [if_pos hid] at h
      exact Option.noConfusion h
    · rw [if_neg hid] at h
      rw [unparkLevels_cons_ne rest sid hid, ih h]

theorem unparkLevels_split_fail (pre : List Level) {lv : Level}
    (post : List Level) {lid sid : Int} {e : UnparkError}
    (hpre : ∀ p ∈ pre, ¬ p.id = lid)
    (h : unparkLevels (lv :: post) lid sid = (some e, lv :: post)) :
    unparkLevels (pre ++ lv :: post) lid sid =
      (some e, pre ++ lv :: post) := by
  induction pre with
  | nil => exact h
  | cons q pre ih =>
    rw [List.cons_append,
      unparkLevels_cons_ne _ sid (hpre q (List.mem_cons_self _ _)),
      ih (fun p hp => hpre p (List.mem_cons_of_mem _ hp))]

theorem unparkLevels_split_occ (pre : List Level) {lv : Level}
    (post : List Level) {lid sid : Int} {s : Spot}
    (hpre : ∀ p ∈ pre, ¬ p.id = lid) (hid : lv.id = lid)
    (hl : lookupSpot lv.spots sid = some s) (ho : s.is_occupied = true) :
    unparkLevels (pre ++ lv :: post) lid sid =
      (none, pre ++ releaseSpot lv sid s.vtype :: post) := by
  induction pre with
  | nil => exact unparkLevels_cons_occ hid hl ho
  | cons q pre ih =>
    rw [List.cons_append,
      unparkLevels_cons_ne _ sid (hpre q (List.mem_cons_self _ _)),
      ih (fun p hp => hpre p (List.mem_cons_of_mem _ hp))]
    rfl

theorem availabilityLines_eq_map (ls : List Level) :
    availabilityLines ls = ls.map availabilityLine := by
  induction ls with
  | nil => rfl
  | cons lv rest ih =>
    rw [List.map_cons, ← ih]
    rfl

theorem mkLevel_lookup (lid c b : Int) (i : Int) :
    lookupSpot (mkLevel lid c b).spots i =
      if i ∈ intRange 1 (c + 1) then
        some ⟨i, VehicleType.CAR, false, none⟩
      else if i ∈ intRange (c + 1) (c + b + 1) then
        some ⟨i, VehicleType.BIKE, false, none⟩
      else none := by
  rw [mkLevel_spots]
  by_cases h1 : i ∈ intRange 1 (c + 1)
  · rw [if_pos h1]
    refine lookupSpot_append_left _ ?_
    rw [lookupSpot_map_ids, if_pos h1]
  · rw [if_neg h1]
    rw [lookupSpot_append_right _ (by rw [lookupSpot_map_ids, if_neg h1])]
    rw [lookupSpot_map_ids]


theorem pre_ids_ne {lot : ParkingLot} {pre post : List Level}
    {lvj : Level} {lid : Int} (hids : NodupIds lot)
    (hsplit : lot.levels = pre ++ lvj :: post) (hlid : lid = lvj.id) :
    ∀ p ∈ pre, ¬ p.id = lid := by
  intro p hp2 he
  have hids2 : ((pre ++ lvj :: post).map Level.id).Nodup := by
    rw [← hsplit]
    exact hids
  rw [List.map_append, List.nodup_append] at hids2
  refine hids2.2.2 (List.mem_map.2 ⟨p, hp2, rfl⟩) ?_
  rw [List.map_cons, he, hlid]
  exact List.mem_cons_self _ _

theorem forall₂_capacity {l1 : List (Int × Int × Int)} {l2 : List Level}
    (hmap : l1.map (fun c => levelShape (mkLevel c.1 c.2.1 c.2.2)) =
      l2.map levelShape)
    (hinv : ∀ lv ∈ l2, LevelInv lv) :
    List.Forall₂ (fun (cfg : Int × Int × Int) (lv : Level) =>
      ∀ t, lv.free_count t + (occCount lv t : Int) =
        (typeCount (mkLevel cfg.1 cfg.2.1 cfg.2.2) t : Int)) l1 l2 := by
  induction l1 generalizing l2 with
  | nil =>
    cases l2 with
    | nil => exact List.Forall₂.nil
    | cons lv l2 => exact absurd hmap (by simp)
  | cons c l1 ih =>
    cases l2 with
    | nil => exact absurd hmap (by simp)
    | cons lv l2 =>
      rw [List.map_cons, List.map_cons] at hmap
      injection hmap with h1 h2
      refine List.Forall₂.cons ?_
        (ih h2 (fun q hq => hinv q (List.mem_cons_of_mem _ hq)))
      intro t
      have hcap := capacity_of_levelInv (hinv lv (List.mem_cons_self _ _)) t
      rw [typeCount_shape_eq h1 t]
      exact hcap

/-- A second car vehicle, used in witnesses. -/
def carB : Vehicle := ⟨VehicleType.CAR, "CAR999"⟩

/-- A lot whose two levels share the id 1 (permitted by `add_level`,
which performs no duplicate check). -/
def dupLot : ParkingLot := mkLot [(1, 1, 0), (1, 1, 0)]

/-- A lot whose first level has id 1 and no spots, and whose second
level also has id 1 and one CAR spot. -/
def shadowLot : ParkingLot := mkLot [(1, 0, 0), (1, 1, 0)]

/-! ### The claims -/

/-- Claim C1: in every state reachable from a constructed lot by park
and unpark calls, each level's free count for a vehicle type equals the
cardinality of its free set for that type (the free set has no
duplicates, so its length is its cardinality), and the free set holds
exactly the spot ids of that type whose spot is not occupied. -/
theorem C1_free_set_invariant (cfgs : List (Int × Int × Int))
    (lot : ParkingLot) (h : Reach (mkLot cfgs) lot) (lv : Level)
    (hlv : lv ∈ lot.levels) (t : VehicleType) :
    lv.free_count t = ((lv.free_spots t).length : Int) ∧
    (lv.free_spots t).Nodup ∧
    (∀ i : Int, i ∈ lv.free_spots t ↔
      ∃ s, lookupSpot lv.spots i = some s ∧ s.vtype = t ∧
        s.is_occupied = false) := by
  have hinv := reach_lotInv h (mkLot_inv cfgs) lv hlv
  exact ⟨hinv.free_count_eq t, hinv.free_nodup t, hinv.free_mem t⟩

/-- Witness for C1 at the demo configuration and the first level. -/
theorem C1_witness :
    (mkLevel 1 2 2).free_count VehicleType.CAR =
      (((mkLevel 1 2 2).free_spots VehicleType.CAR).length : Int) ∧
    ((mkLevel 1 2 2).free_spots VehicleType.CAR).Nodup ∧
    (∀ i : Int, i ∈ (mkLevel 1 2 2).free_spots VehicleType.CAR ↔
      ∃ s, lookupSpot (mkLevel 1 2 2).spots i = some s ∧
        s.vtype = VehicleType.CAR ∧ s.is_occupied = false) :=
  C1_free_set_invariant [(1, 2, 2), (2, 1, 3)] demoLot
    (Reach.refl demoLot) (mkLevel 1 2 2) (List.Mem.head _)
    VehicleType.CAR

/-- Counterexample to claim C2 as stated: with two levels that share
id 1 (each with one CAR spot), two successful park calls with no
unpark in between both return the location (1, 1). -/
theorem C2_counterexample :
    (park dupLot demoCar).1 = some (1, 1) ∧
    (park (park dupLot demoCar).2 carB).1 = some (1, 1) := by
  constructor
  · decide
  · decide

/-- Claim C2 (amended): provided the lot's level ids are distinct and
the state satisfies the data-structure invariant, a location returned
by a successful park is never returned by a later park as long as no
unpark of that location intervenes; moreover the allocated spot was
unoccupied with no vehicle bound before the call, so at most one
vehicle is ever bound to a spot. -/
theorem C2_no_double_allocation (lot : ParkingLot) (v : Vehicle)
    (lid sid : Int) (ops : List Op) (v2 : Vehicle)
    (hinv : LotInv lot) (hids : NodupIds lot)
    (hpark : (park lot v).1 = some (lid, sid))
    (havoid : ∀ op ∈ ops, op ≠ Op.opUnpark lid sid) :
    (park (runOps (park lot v).2 ops) v2).1 ≠ some (lid, sid) ∧
    (∃ lv s, findLevel lot.levels lid = some lv ∧
      lookupSpot lv.spots sid = some s ∧ s.is_occupied = false ∧
      s.vehicle = none) := by
  obtain ⟨⟨lv, s, hf, hl, ho, hveh, -⟩, hocc⟩ :=
    park_success_fresh hinv hids hpark
  obtain ⟨h1, h2, h3⟩ := runOps_occupied ops (park lot v).2
    (lotInv_park v hinv) (nodupIds_applyOp (Op.opPark v) hids)
    havoid hocc
  exact ⟨park_not_occupied h1 h2 h3, ⟨lv, s, hf, hl, ho, hveh⟩⟩

/-- Witness for C2 on the demo lot with an intervening bike park. -/
theorem C2_witness :
    (park (runOps (park demoLot demoCar).2 [Op.opPark demoBike])
        carB).1 ≠ some (1, 1) ∧
    (∃ lv s, findLevel demoLot.levels 1 = some lv ∧
      lookupSpot lv.spots 1 = some s ∧ s.is_occupied = false ∧
      s.vehicle = none) :=
  C2_no_double_allocation demoLot demoCar 1 1 [Op.opPark demoBike] carB
    (mkLot_inv [(1, 2, 2), (2, 1, 3)])
    (by decide : ((demoLot.levels.map Level.id).Nodup))
    (by decide) (by decide)

/-- Claim C3: park scans the levels in sequence order; at the first
level whose free set for the vehicle's type is non-empty it removes one
id from that set, marks the spot occupied, binds the vehicle to it,
decrements that level's free count for the type, and returns that
level's id with that spot's id, leaving every other level untouched.
In the reference configuration, parking a CAR assigns a spot of level 1
and leaves level 1's CAR free count at 1. -/
theorem C3_park_first_fit (lot : ParkingLot) (v : Vehicle)
    (pre : List Level) (lv : Level) (post : List Level) (sid : Int)
    (rest : List Int)
    (hsplit : lot.levels = pre ++ lv :: post)
    (hpre : ∀ p ∈ pre, p.free_spots v.vtype = [])
    (hlv : lv.free_spots v.vtype = sid :: rest) :
    ((park lot v).1 = some (lv.id, sid) ∧
     (park lot v).2.levels = pre ++ allocSpot lv v sid rest :: post ∧
     (allocSpot lv v sid rest).free_spots v.vtype = rest ∧
     (allocSpot lv v sid rest).free_count v.vtype =
       lv.free_count v.vtype - 1 ∧
     (∀ s, lookupSpot lv.spots sid = some s →
       lookupSpot (allocSpot lv v sid rest).spots sid =
         some { s with is_occupied := true, vehicle := some v })) ∧
    ((park demoLot demoCar).1 = some (1, 1) ∧
     (park demoLot demoCar).2.levels.map
       (fun p => p.free_count VehicleType.CAR) = [1, 1]) := by
  constructor
  · have hmain := parkLevels_split pre post hpre hlv
    refine ⟨?_, ?_, ?_, ?_, ?_⟩
    · show (parkLevels lot.levels v).1 = some (lv.id, sid)
      rw [hsplit, hmain]
    · show (parkLevels lot.levels v).2 = _
      rw [hsplit, hmain]
    · rw [allocSpot_free_spots, if_pos rfl]
    · rw [allocSpot_free_count, if_pos rfl]
    · intro s hs
      rw [allocSpot_spots]
      exact lookupSpot_updateSpot_self _ hs
  · exact ⟨by decide, by decide⟩

/-- Witness for C3 at the demo lot (level 1 is the first level and its
CAR free set is [1, 2]). -/
theorem C3_witness :
    (((park demoLot demoCar).1 = some ((mkLevel 1 2 2).id, 1) ∧
      (park demoLot demoCar).2.levels =
        [] ++ allocSpot (mkLevel 1 2 2) demoCar 1 [2] :: [mkLevel 2 1 3] ∧
      (allocSpot (mkLevel 1 2 2) demoCar 1 [2]).free_spots
        demoCar.vtype = [2] ∧
      (allocSpot (mkLevel 1 2 2) demoCar 1 [2]).free_count
        demoCar.vtype = (mkLevel 1 2 2).free_count demoCar.vtype - 1 ∧
      (∀ s, lookupSpot (mkLevel 1 2 2).spots 1 = some s →
        lookupSpot (allocSpot (mkLevel 1 2 2) demoCar 1 [2]).spots 1 =
          some { s with is_occupied := true, vehicle := some demoCar })) ∧
     ((park demoLot demoCar).1 = some (1, 1) ∧
      (park demoLot demoCar).2.levels.map
        (fun p => p.free_count VehicleType.CAR) = [1, 1])) :=
  C3_park_first_fit demoLot demoCar [] (mkLevel 1 2 2) [mkLevel 2 1 3]
    1 [2] rfl (by simp) (by decide)

/-- Counterexample to claim C4 as stated: with two levels sharing id 1,
the first with no spots and the second with one CAR spot, park returns
(1, 1) but unpark(1, 1) resolves to the first level, fails with the
invalid-spot error, leaves both CAR free counts at 0 (the pre-park
values were [0, 1]), and leaves the allocated spot occupied. -/
theorem C4_counterexample :
    (park shadowLot demoCar).1 = some (1, 1) ∧
    (unpark (park shadowLot demoCar).2 1 1).1 =
      some UnparkError.unknownSpot ∧
    (unpark (park shadowLot demoCar).2 1 1).2.levels.map
      (fun p => p.free_count VehicleType.CAR) = [0, 0] ∧
    (unpark (park shadowLot demoCar).2 1 1).2.levels.map
      (fun p => (lookupSpot p.spots 1).map Spot.is_occupied) =
      [none, some true] := by
  refine ⟨?_, ?_, ?_, ?_⟩ <;> decide

/-- Claim C4 (amended): provided the lot's level ids are distinct and
the state satisfies the data-structure invariant, parking a vehicle and
immediately unparking at the returned location succeeds, restores that
level's free count for the vehicle's type to its pre-park value, and
leaves the spot unoccupied with no vehicle bound. -/
theorem C4_roundtrip (lot : ParkingLot) (v : Vehicle) (lid sid : Int)
    (hinv : LotInv lot) (hids : NodupIds lot)
    (hpark : (park lot v).1 = some (lid, sid)) :
    (unpark (park lot v).2 lid sid).1 = none ∧
    ∃ lv0 lv2, findLevel lot.levels lid = some lv0 ∧
      findLevel (unpark (park lot v).2 lid sid).2.levels lid = some lv2 ∧
      lv2.free_count v.vtype = lv0.free_count v.vtype ∧
      ∃ s2, lookupSpot lv2.spots sid = some s2 ∧
        s2.is_occupied = false ∧ s2.vehicle = none := by
  obtain ⟨pre, lvj, post, free, hsplit, hpre, hfs, hlid, hpost⟩ :=
    parkLevels_some_exists hpark
  have hlvj : lvj ∈ lot.levels := by
    rw [hsplit]
    exact List.mem_append_right _ (List.mem_cons_self _ _)
  have hinvj := hinv lvj hlvj
  have hsid : sid ∈ lvj.free_spots v.vtype := by
    rw [hfs]
    exact List.mem_cons_self _ _
  obtain ⟨s, hl, ht, ho⟩ := (hinvj.free_mem v.vtype sid).1 hsid
  have hprene : ∀ p ∈ pre, ¬ p.id = lid := pre_ids_ne hids hsplit hlid
  have hlevels : (park lot v).2.levels =
      pre ++ allocSpot lvj v sid free :: post := hpost
  have hid1 : (allocSpot lvj v sid free).id = lid := by
    rw [allocSpot_id]
    exact hlid.symm
  have hl1 : lookupSpot (allocSpot lvj v sid free).spots sid =
      some { s with is_occupied := true, vehicle := some v } := by
    rw [allocSpot_spots]
    exact lookupSpot_updateSpot_self _ hl
  have hunp := unparkLevels_split_occ pre post hprene hid1 hl1 rfl
  have hsnd : (unpark (park lot v).2 lid sid).2.levels =
      pre ++ releaseSpot (allocSpot lvj v sid free) sid
        ({ s with is_occupied := true, vehicle := some v }).vtype ::
        post := by
    show (unparkLevels (park lot v).2.levels lid sid).2 = _
    rw [hlevels, hunp]
  constructor
  · show (unparkLevels (park lot v).2.levels lid sid).1 = none
    rw [hlevels, hunp]
  · refine ⟨lvj,
      releaseSpot (allocSpot lvj v sid free) sid
        ({ s with is_occupied := true, vehicle := some v }).vtype,
      ?_, ?_, ?_, ?_⟩
    · rw [hsplit]
      exact findLevel_of_split pre post hprene hlid.symm
    · rw [hsnd]
      refine findLevel_of_split pre post hprene ?_
      rw [releaseSpot_id, allocSpot_id]
      exact hlid.symm
    · have hvt : v.vtype =
          ({ s with is_occupied := true, vehicle := some v }).vtype :=
        ht.symm
      rw [releaseSpot_free_count, if_pos hvt, allocSpot_free_count,
        if_pos rfl]
      ring
    · refine ⟨{ s with is_occupied := false, vehicle := none }, ?_, rfl,
        rfl⟩
      rw [releaseSpot_spots]
      have := lookupSpot_updateSpot_self
        (fun q => { q with is_occupied := false, vehicle := none }) hl1
      exact this

/-- Witness for C4 at the demo lot. -/
theorem C4_witness :
    (unpark (park demoLot demoCar).2 1 1).1 = none ∧
    ∃ lv0 lv2, findLevel demoLot.levels 1 = some lv0 ∧
      findLevel (unpark (park demoLot demoCar).2 1 1).2.levels 1 =
        some lv2 ∧
      lv2.free_count demoCar.vtype = lv0.free_count demoCar.vtype ∧
      ∃ s2, lookupSpot lv2.spots 1 = some s2 ∧
        s2.is_occupied = false ∧ s2.vehicle = none :=
  C4_roundtrip demoLot demoCar 1 1
    (mkLot_inv [(1, 2, 2), (2, 1, 3)])
    (by decide : ((demoLot.levels.map Level.id).Nodup))
    (by decide)

/-- Claim C5: when no level has a free spot of the requested type, park
returns the `none` sentinel rather than raising, and that sentinel is
distinguishable from every successful result; for a fresh lot with
total CAR capacity C, a sequence of C car parks succeeds throughout and
the next car park returns the sentinel, regardless of bike
capacities. -/
theorem C5_exhaustion (cfgs : List (Int × Int × Int))
    (cars : List Vehicle)
    (hcars : ∀ u ∈ cars, u.vtype = VehicleType.CAR)
    (hlen : cars.length = totalCarCapacity cfgs) (v : Vehicle)
    (hv : v.vtype = VehicleType.CAR) :
    (∀ lot2 : ParkingLot,
      (∀ p ∈ lot2.levels, p.free_spots v.vtype = []) →
      (park lot2 v).1 = none) ∧
    (∀ r ∈ (parkSeq (mkLot cfgs) cars).1, ∃ q, r = some q) ∧
    (park (parkSeq (mkLot cfgs) cars).2 v).1 = none ∧
    (∀ q : Int × Int, (none : Option (Int × Int)) ≠ some q) := by
  have h0 : totalFree (mkLot cfgs) VehicleType.CAR = cars.length := by
    rw [totalFree_mkLot_car, hlen]
  obtain ⟨hall, hzero⟩ := parkSeq_exhaust cars (mkLot cfgs) hcars h0
  refine ⟨?_, hall, ?_, fun q hq => Option.noConfusion hq⟩
  · intro lot2 h
    rw [park_none_iff]
    exact h
  · rw [park_none_iff, ← totalFree_eq_zero_iff, hv]
    exact hzero

/-- Witness for C5 on a one-level lot with one CAR and one BIKE spot. -/
theorem C5_witness :
    (∀ lot2 : ParkingLot,
      (∀ p ∈ lot2.levels, p.free_spots carB.vtype = []) →
      (park lot2 carB).1 = none) ∧
    (∀ r ∈ (parkSeq (mkLot [(1, 1, 1)]) [demoCar]).1, ∃ q, r = some q) ∧
    (park (parkSeq (mkLot [(1, 1, 1)]) [demoCar]).2 carB).1 = none ∧
    (∀ q : Int × Int, (none : Option (Int × Int)) ≠ some q) :=
  C5_exhaustion [(1, 1, 1)] [demoCar] (by decide) (by decide) carB
    (by decide)

/-- Claim C6: unpark succeeds exactly when the first level with the
given id exists, holds the spot id, and that spot is occupied; it fails
with the unknown-level error when no level matches, with the
unknown-spot error when the level exists but the spot id does not, and
with the already-free error when the spot exists but is unoccupied; on
success it clears occupancy and the vehicle reference, re-inserts the
id into the free set of the spot's type, and increments that free
count; and a second unpark of the same location then fails with the
already-free error. -/
theorem C6_unpark_cases (lot : ParkingLot) (lid sid : Int) :
    ((unpark lot lid sid).1 = none ↔
      ∃ lv s, findLevel lot.levels lid = some lv ∧
        lookupSpot lv.spots sid = some s ∧ s.is_occupied = true) ∧
    (findLevel lot.levels lid = none →
      (unpark lot lid sid).1 = some UnparkError.unknownLevel) ∧
    (∀ lv, findLevel lot.levels lid = some lv →
      lookupSpot lv.spots sid = none →
      (unpark lot lid sid).1 = some UnparkError.unknownSpot) ∧
    (∀ lv s, findLevel lot.levels lid = some lv →
      lookupSpot lv.spots sid = some s → s.is_occupied = false →
      (unpark lot lid sid).1 = some UnparkError.alreadyFree) ∧
    (∀ lv s, findLevel lot.levels lid = some lv →
      lookupSpot lv.spots sid = some s → s.is_occupied = true →
      ∃ lv', findLevel (unpark lot lid sid).2.levels lid = some lv' ∧
        lookupSpot lv'.spots sid =
          some { s with is_occupied := false, vehicle := none } ∧
        sid ∈ lv'.free_spots s.vtype ∧
        lv'.free_count s.vtype = lv.free_count s.vtype + 1) ∧
    ((unpark lot lid sid).1 = none →
      (unpark (unpark lot lid sid).2 lid sid).1 =
        some UnparkError.alreadyFree) := by
  refine ⟨⟨?_, ?_⟩, ?_, ?_, ?_, ?_, ?_⟩
  · intro h
    have h2 : (unparkLevels lot.levels lid sid).1 = none := h
    obtain ⟨pre, lv, post, s, hsplit, hpre, hid, hl, ho, -⟩ :=
      unparkLevels_some_exists h2
    refine ⟨lv, s, ?_, hl, ho⟩
    rw [hsplit]
    exact findLevel_of_split pre post hpre hid
  · rintro ⟨lv, s, hf, hl, ho⟩
    obtain ⟨pre, post, hsplit, hpre, hid⟩ := findLevel_split hf
    show (unparkLevels lot.levels lid sid).1 = none
    rw [hsplit, unparkLevels_split_occ pre post hpre hid hl ho]
  · intro h
    show (unparkLevels lot.levels lid sid).1 = some _
    rw [unparkLevels_none_level sid h]
  · intro lv hf hl
    obtain ⟨pre, post, hsplit, hpre, hid⟩ := findLevel_split hf
    show (unparkLevels lot.levels lid sid).1 = some _
    rw [hsplit, unparkLevels_split_fail pre post hpre
      (unparkLevels_cons_nospot post hid hl)]
  · intro lv s hf hl ho
    obtain ⟨pre, post, hsplit, hpre, hid⟩ := findLevel_split hf
    show (unparkLevels lot.levels lid sid).1 = some _
    rw [hsplit, unparkLevels_split_fail pre post hpre
      (unparkLevels_cons_notocc hid hl ho)]
  · intro lv s hf hl ho
    obtain ⟨pre, post, hsplit, hpre, hid⟩ := findLevel_split hf
    have hsnd : (unpark lot lid sid).2.levels =
        pre ++ releaseSpot lv sid s.vtype :: post := by
      show (unparkLevels lot.levels lid sid).2 = _
      rw [hsplit, unparkLevels_split_occ pre post hpre hid hl ho]
    refine ⟨releaseSpot lv sid s.vtype, ?_, ?_, ?_, ?_⟩
    · rw [hsnd]
      refine findLevel_of_split pre post hpre ?_
      rw [releaseSpot_id]
      exact hid
    · rw [releaseSpot_spots]
      exact lookupSpot_updateSpot_self _ hl
    · rw [releaseSpot_free_spots, if_pos rfl]
      exact mem_setAdd_self _ _
    · rw [releaseSpot_free_count, if_pos rfl]
  · intro hsucc
    have hsucc2 : (unparkLevels lot.levels lid sid).1 = none := hsucc
    obtain ⟨pre, lvu, post, su, hsplit, hpre, hid, hlu, hou, hsnd2⟩ :=
      unparkLevels_some_exists hsucc2
    have hlev2 : (unpark lot lid sid).2.levels =
        pre ++ releaseSpot lvu sid su.vtype :: post := hsnd2
    show (unparkLevels (unpark lot lid sid).2.levels lid sid).1 = some _
    have hid2 : (releaseSpot lvu sid su.vtype).id = lid := by
      rw [releaseSpot_id]
      exact hid
    have hl2 : lookupSpot (releaseSpot lvu sid su.vtype).spots sid =
        some { su with is_occupied := false, vehicle := none } := by
      rw [releaseSpot_spots]
      exact lookupSpot_updateSpot_self _ hlu
    rw [hlev2, unparkLevels_split_fail pre post hpre
      (unparkLevels_cons_notocc hid2 hl2 rfl)]

/-- Witness for C6: the three error kinds at concrete bad inputs on the
demo lot. -/
theorem C6_witness :
    (unpark demoLot 5 1).1 = some UnparkError.unknownLevel ∧
    (unpark demoLot 1 9).1 = some UnparkError.unknownSpot ∧
    (unpark demoLot 1 1).1 = some UnparkError.alreadyFree :=
  ⟨(C6_unpark_cases demoLot 5 1).2.1 rfl,
   (C6_unpark_cases demoLot 1 9).2.2.1 (mkLevel 1 2 2) rfl (by decide),
   (C6_unpark_cases demoLot 1 1).2.2.2.1 (mkLevel 1 2 2)
     ⟨1, VehicleType.CAR, false, none⟩ rfl (by decide) rfl⟩

/-- Claim C7: in every state reachable from a constructed lot, each
level's free count plus its occupied count for a vehicle type equals
the number of spots of that type created when the level was
constructed (positionally along the configuration list). -/
theorem C7_capacity_invariant (cfgs : List (Int × Int × Int))
    (lot : ParkingLot) (h : Reach (mkLot cfgs) lot) :
    List.Forall₂ (fun (cfg : Int × Int × Int) (lv : Level) =>
      ∀ t, lv.free_count t + (occCount lv t : Int) =
        (typeCount (mkLevel cfg.1 cfg.2.1 cfg.2.2) t : Int))
      cfgs lot.levels := by
  have hshape := reach_shape h
  have hmap : cfgs.map (fun c => levelShape (mkLevel c.1 c.2.1 c.2.2)) =
      lot.levels.map levelShape := by
    rw [hshape]
    show _ = (cfgs.map (fun c => mkLevel c.1 c.2.1 c.2.2)).map levelShape
    rw [List.map_map]
    rfl
  exact forall₂_capacity hmap (reach_lotInv h (mkLot_inv cfgs))

/-- Witness for C7 at the demo configuration. -/
theorem C7_witness :
    List.Forall₂ (fun (cfg : Int × Int × Int) (lv : Level) =>
      ∀ t, lv.free_count t + (occCount lv t : Int) =
        (typeCount (mkLevel cfg.1 cfg.2.1 cfg.2.2) t : Int))
      [(1, 2, 2), (2, 1, 3)] demoLot.levels :=
  C7_capacity_invariant [(1, 2, 2), (2, 1, 3)] demoLot
    (Reach.refl demoLot)

/-- Claim C8: whenever unpark fails — with any of its three errors —
the lot state is exactly what it was before the call. -/
theorem C8_unpark_failure_frame (lot : ParkingLot) (lid sid : Int)
    (e : UnparkError) (h : (unpark lot lid sid).1 = some e) :
    (unpark lot lid sid).2 = lot := by
  rw [unpark_snd, unparkLevels_fail_state h]

/-- Witness for C8 at an unknown level id on the demo lot. -/
theorem C8_witness :
    (unpark demoLot 5 1).1 = some UnparkError.unknownLevel ∧
    (unpark demoLot 5 1).2 = demoLot :=
  ⟨by decide, C8_unpark_failure_frame demoLot 5 1
    UnparkError.unknownLevel (by decide)⟩

/-- Claim C9: display_availability mutates no state — it returns the
lot unchanged, so every level's spots, free sets and free counts are
identical before and after — and its output is one line per level in
sequence order between the fixed header and footer. -/
theorem C9_display_readonly (lot : ParkingLot) :
    (display_availability lot).2 = lot ∧
    (display_availability lot).1 =
      "----- Parking Availability -----" ::
        lot.levels.map availabilityLine ++
        ["--------------------------------"] := by
  refine ⟨rfl, ?_⟩
  show "----- Parking Availability -----" ::
      availabilityLines lot.levels ++
      ["--------------------------------"] = _
  rw [availabilityLines_eq_map]

/-- Counterexample to claim C10 as stated: constructing a level with
car capacity -1 does not fail with any error; it returns an ordinary
level with zero CAR spots (and, with bike capacity 2, BIKE spots whose
ids are 0 and 1). -/
theorem C10_counterexample :
    (mkLevel 7 (-1) 2).spots.map Prod.fst = [0, 1] ∧
    (mkLevel 7 (-1) 2).free_count VehicleType.CAR = 0 ∧
    (mkLevel 7 (-1) 2).free_spots VehicleType.CAR = [] ∧
    (mkLevel 7 (-1) 2).free_count VehicleType.BIKE = 2 := by
  refine ⟨?_, ?_, ?_, ?_⟩ <;> decide

/-- Claim C10 (amended): construction performs no capacity validation —
a negative capacity simply yields zero spots of that type rather than
an error.  For non-negative capacities the constructor creates
car_capacity CAR spots with ids 1..car_capacity and bike_capacity BIKE
spots with ids car_capacity+1..car_capacity+bike_capacity, all
initially free and unbound, with matching free counts. -/
theorem C10_construction (lid c b : Int) (hc : 0 ≤ c) (hb : 0 ≤ b) :
    (∀ i : Int, (∃ s, lookupSpot (mkLevel lid c b).spots i = some s ∧
        s.vtype = VehicleType.CAR ∧ s.is_occupied = false ∧
        s.vehicle = none) ↔ 1 ≤ i ∧ i ≤ c) ∧
    (∀ i : Int, (∃ s, lookupSpot (mkLevel lid c b).spots i = some s ∧
        s.vtype = VehicleType.BIKE ∧ s.is_occupied = false ∧
        s.vehicle = none) ↔ c + 1 ≤ i ∧ i ≤ c + b) ∧
    (mkLevel lid c b).free_count VehicleType.CAR = c ∧
    (mkLevel lid c b).free_count VehicleType.BIKE = b ∧
    (mkLevel lid c b).id = lid := by
  refine ⟨?_, ?_, ?_, ?_, rfl⟩
  · intro i
    rw [mkLevel_lookup]
    by_cases h1 : i ∈ intRange 1 (c + 1)
    · rw [if_pos h1]
      rw [mem_intRange] at h1
      constructor
      · intro h
        omega
      · intro h
        exact ⟨_, rfl, rfl, rfl, rfl⟩
    · rw [if_neg h1]
      rw [mem_intRange] at h1
      by_cases h2 : i ∈ intRange (c + 1) (c + b + 1)
      · rw [if_pos h2]
        rw [mem_intRange] at h2
        constructor
        · rintro ⟨s, hs, hst, -⟩
          injection hs with hs
          rw [← hs] at hst
          exact VehicleType.noConfusion hst
        · intro hi
          omega
      · rw [if_neg h2]
        rw [mem_intRange] at h2
        constructor
        · rintro ⟨s, hs, -⟩
          exact Option.noConfusion hs
        · intro hi
          omega
  · intro i
    rw [mkLevel_lookup]
    by_cases h1 : i ∈ intRange 1 (c + 1)
    · rw [if_pos h1]
      rw [mem_intRange] at h1
      constructor
      · rintro ⟨s, hs, hst, -⟩
        injection hs with hs
        rw [← hs] at hst
        exact VehicleType.noConfusion hst
      · intro hi
        omega
    · rw [if_neg h1]
      rw [mem_intRange] at h1
      by_cases h2 : i ∈ intRange (c + 1) (c + b + 1)
      · rw [if_pos h2]
        rw [mem_intRange] at h2
        constructor
        · intro h
          omega
        · intro h
          exact ⟨_, rfl, rfl, rfl, rfl⟩
      · rw [if_neg h2]
        rw [mem_intRange] at h2
        constructor
        · rintro ⟨s, hs, -⟩
          exact Option.noConfusion hs
        · intro hi
          omega
  · show ((intRange 1 (c + 1)).length : Int) = c
    rw [length_intRange]
    omega
  · show ((intRange (c + 1) (c + b + 1)).length : Int) = b
    rw [length_intRange]
    omega

/-- Witness for C10 at capacities 2 and 3. -/
theorem C10_witness :
    (0 : Int) ≤ 2 ∧ (0 : Int) ≤ 3 ∧
    ((∀ i : Int, (∃ s, lookupSpot (mkLevel 5 2 3).spots i = some s ∧
        s.vtype = VehicleType.CAR ∧ s.is_occupied = false ∧
        s.vehicle = none) ↔ 1 ≤ i ∧ i ≤ 2) ∧
     (∀ i : Int, (∃ s, lookupSpot (mkLevel 5 2 3).spots i = some s ∧
        s.vtype = VehicleType.BIKE ∧ s.is_occupied = false ∧
        s.vehicle = none) ↔ 2 + 1 ≤ i ∧ i ≤ 2 + 3) ∧
     (mkLevel 5 2 3).free_count VehicleType.CAR = 2 ∧
     (mkLevel 5 2 3).free_count VehicleType.BIKE = 3 ∧
     (mkLevel 5 2 3).id = 5) :=
  ⟨by decide, by decide, C10_construction 5 2 3 (by decide) (by decide)⟩
